import Mathlib

/-
Verification of the term-stack engine (term_stack2.c) of this repository.

The development shallowly embeds the stack engine: the value cells, the
frame chain, the push primitives, the recyclable buffer pool, the reset and
pop operations, and the per-opcode check/eval pairs that the claims are
about.  Machine integers are modelled as `Nat`/`Int` with explicit
`% 2 ^ w` where overflow matters; the `longjmp`-based error escape is
modelled with `Except`.  External collaborators (the yices term builder,
the bit-array library, the global name registry) are out of scope for the
sources; their definitions below carry doc comments starting with
`Modelled from the spec:` and follow the interface boundary that the
specification describes.
-/

namespace TermStack2

/-- Source location (line, column), from `loc_t` in term_stack2.h. -/
structure Loc where
  line : Nat
  column : Nat
  deriving DecidableEq, Repr

/-- Error codes, from `tstack_error_t` in term_stack2.h. -/
inductive TstackError where
  | TSTACK_NO_ERROR
  | TSTACK_INTERNAL_ERROR
  | TSTACK_OP_NOT_IMPLEMENTED
  | TSTACK_UNDEF_TERM
  | TSTACK_UNDEF_TYPE
  | TSTACK_UNDEF_MACRO
  | TSTACK_RATIONAL_FORMAT
  | TSTACK_FLOAT_FORMAT
  | TSTACK_BVBIN_FORMAT
  | TSTACK_BVHEX_FORMAT
  | TSTACK_TYPENAME_REDEF
  | TSTACK_TERMNAME_REDEF
  | TSTACK_MACRO_REDEF
  | TSTACK_DUPLICATE_SCALAR_NAME
  | TSTACK_DUPLICATE_VAR_NAME
  | TSTACK_INVALID_OP
  | TSTACK_INVALID_FRAME
  | TSTACK_INTEGER_OVERFLOW
  | TSTACK_NEGATIVE_EXPONENT
  | TSTACK_NOT_AN_INTEGER
  | TSTACK_NOT_A_STRING
  | TSTACK_NOT_A_SYMBOL
  | TSTACK_NOT_A_RATIONAL
  | TSTACK_NOT_A_TYPE
  | TSTACK_ARITH_ERROR
  | TSTACK_DIVIDE_BY_ZERO
  | TSTACK_NON_CONSTANT_DIVISOR
  | TSTACK_NONPOSITIVE_BVSIZE
  | TSTACK_INCOMPATIBLE_BVSIZES
  | TSTACK_INVALID_BVCONSTANT
  | TSTACK_BVARITH_ERROR
  | TSTACK_BVLOGIC_ERROR
  | TSTACK_TYPE_ERROR_IN_DEFTERM
  | TSTACK_YICES_ERROR
  | TSTACK_DUPLICATE_TYPE_VAR_NAME
  deriving DecidableEq, Repr

/-- `norm64 c n`: clear the bits of `c` above position `n-1`
(from bv64_constants.h; arithmetic modulo `2 ^ n`). -/
def norm64 (c : Nat) (n : Nat) : Nat := c % 2 ^ n

mutual

/-- Modelled from the spec: terms produced by the external hash-consing
term builder (yices.h / the global term table).  Hash consing is modelled
by structural equality of this deep representation.  `bvApp1`/`bvApp2` are
opaque builder applications (tagged), carrying their bitsize `w`. -/
inductive YTerm : Type where
  | trueTm
  | falseTm
  | bvconst64 (w v : Nat)
  | bvconstW (w v : Nat)
  | bvvar (id w : Nat)
  | boolvar (id : Nat)
  | or2 (a b : YTerm)
  | and2 (a b : YTerm)
  | xor2 (a b : YTerm)
  | notTm (a : YTerm)
  | bvApp1 (tag w : Nat) (a : YTerm)
  | bvApp2 (tag w : Nat) (a b : YTerm)
  | bvFromBits (w : Nat) (bs : BitSeq)
  deriving DecidableEq, Repr

/-- Modelled from the spec: a single (possibly symbolic) bit of a
bit-vector logic buffer (bvlogic_buffers.h).  `bsel t i` is bit `i` of
term `t`. -/
inductive Bit : Type where
  | bconst (v : Bool)
  | bsel (t : YTerm) (i : Nat)
  | bnot (x : Bit)
  | band (x y : Bit)
  | bor (x y : Bit)
  | bxor (x y : Bit)
  deriving DecidableEq, Repr

/-- A sequence of bits as stored inside a `YTerm.bvFromBits`. -/
inductive BitSeq : Type where
  | nil
  | cons (b : Bit) (rest : BitSeq)
  deriving DecidableEq, Repr

end

/-- Convert a bit list to a `BitSeq`. -/
def BitSeq.ofList : List Bit → BitSeq
  | [] => .nil
  | b :: rest => .cons b (BitSeq.ofList rest)

/-- Bit i of a constant value `v` (little-endian). -/
def constBit (v : Nat) (i : Nat) : Bit := .bconst (v.testBit i)

/-- The `n` low-order bits of the constant `v`, low-order bit first.
This is the bit-array representation that
`bvlogic_buffer_set_constant64` produces. -/
def constBits : Nat → Nat → List Bit
  | 0, _ => []
  | n + 1, v => .bconst (v % 2 = 1) :: constBits n (v / 2)

/-- Value of a list of constant bits (low-order bit first); symbolic bits
count as 0.  Used to state what a constant logic buffer denotes. -/
def bitsValue : List Bit → Nat
  | [] => 0
  | .bconst b :: rest => (if b then 1 else 0) + 2 * bitsValue rest
  | _ :: rest => 2 * bitsValue rest

/-- Whether every bit in the list is constant. -/
def bitsConstant : List Bit → Bool
  | [] => true
  | .bconst _ :: rest => bitsConstant rest
  | _ :: _ => false

end TermStack2

namespace TermStack2

/-- Modelled from the spec: a bitvector polynomial buffer for bitsizes 1..64
(`bvarith64_buffer_t`).  `id` models pointer identity (the pool holds at
most one instance; identity decides recycle-vs-free).  `cst` is the
constant monomial, kept normalized modulo `2 ^ bitsize`; non-constant
monomial operations are journaled opaquely as (operation tag, term). -/
structure BvArith64Buffer where
  id : Nat
  bitsize : Nat
  cst : Nat
  journal : List (Nat × YTerm)
  deriving DecidableEq, Repr

/-- Modelled from the spec: the wide polynomial buffer (`bvarith_buffer_t`,
bitsize > 64), same shape as the 64-bit one. -/
structure BvArithBuffer where
  id : Nat
  bitsize : Nat
  cst : Nat
  journal : List (Nat × YTerm)
  deriving DecidableEq, Repr

/-- Modelled from the spec: the bit-vector logic buffer
(`bvlogic_buffer_t`): an array of (possibly symbolic) bits, low-order bit
first, plus a pointer identity. -/
structure BvLogicBuffer where
  id : Nat
  bits : List Bit
  deriving DecidableEq, Repr

/-- Cell tags, from `tag_t` in term_stack2.h (plus the `TAG_OPCODE` and
`TAG_ATTRIBUTE` variants that term_stack2.c uses). -/
inductive Tag where
  | TAG_NONE
  | TAG_OP
  | TAG_OPCODE
  | TAG_SYMBOL
  | TAG_STRING
  | TAG_BV64
  | TAG_BV
  | TAG_RATIONAL
  | TAG_TERM
  | TAG_TYPE
  | TAG_MACRO
  | TAG_BVARITH64_BUFFER
  | TAG_BVARITH_BUFFER
  | TAG_BVLOGIC_BUFFER
  | TAG_BINDING
  | TAG_TYPE_BINDING
  | TAG_ATTRIBUTE
  deriving DecidableEq, Repr

/-- The tagged payload of a stack element (`stack_elem_t.val` together with
the discriminating tag).  Wide bit-vector constants (`bv_t`) carry their
value as a `Nat` (the word array denotes that number, kept normalized by
`bvconst_normalize`).  Types and macros are integer handles. -/
inductive StackVal where
  | vnone
  | vop (opcode : Int) (mult : Nat) (prev : Nat)
  | vopcode (op : Int)
  | vsymbol (s : String)
  | vstring (s : String)
  | vbv64 (bitsize : Nat) (value : Nat)
  | vbv (bitsize : Nat) (value : Nat)
  | vrational (q : Rat)
  | vterm (t : YTerm)
  | vtype (tau : Int)
  | vmacroId (m : Int)
  | vbvarith64 (b : BvArith64Buffer)
  | vbvarith (b : BvArithBuffer)
  | vbvlogic (b : BvLogicBuffer)
  | vbinding (t : YTerm) (symbol : String)
  | vtypeBinding (tau : Int) (symbol : String)
  | vattribute (aval : Int)
  deriving DecidableEq, Repr

/-- The tag of a payload. -/
def StackVal.tag : StackVal → Tag
  | .vnone => .TAG_NONE
  | .vop _ _ _ => .TAG_OP
  | .vopcode _ => .TAG_OPCODE
  | .vsymbol _ => .TAG_SYMBOL
  | .vstring _ => .TAG_STRING
  | .vbv64 _ _ => .TAG_BV64
  | .vbv _ _ => .TAG_BV
  | .vrational _ => .TAG_RATIONAL
  | .vterm _ => .TAG_TERM
  | .vtype _ => .TAG_TYPE
  | .vmacroId _ => .TAG_MACRO
  | .vbvarith64 _ => .TAG_BVARITH64_BUFFER
  | .vbvarith _ => .TAG_BVARITH_BUFFER
  | .vbvlogic _ => .TAG_BVLOGIC_BUFFER
  | .vbinding _ _ => .TAG_BINDING
  | .vtypeBinding _ _ => .TAG_TYPE_BINDING
  | .vattribute _ => .TAG_ATTRIBUTE

/-- One element of the stack: payload plus source location
(`stack_elem_t`). -/
structure StackElem where
  val : StackVal
  loc : Loc
  deriving DecidableEq, Repr

/-- The default (junk) element used for out-of-range reads. -/
def defaultElem : StackElem := ⟨.vnone, ⟨0, 0⟩⟩

/-- Predefined opcodes, in the order of the operator tables at the end of
term_stack2.c (`assoc` / `check` / `eval` arrays). -/
def NO_OP : Int := 0
def DEFINE_TYPE : Int := 1
def DEFINE_TERM : Int := 2
def BIND : Int := 3
def LET : Int := 4
def MK_BV_TYPE : Int := 5
def MK_ITE : Int := 6
def MK_EQ : Int := 7
def MK_DISEQ : Int := 8
def MK_DISTINCT : Int := 9
def MK_NOT : Int := 10
def MK_OR : Int := 11
def MK_AND : Int := 12
def MK_XOR : Int := 13
def MK_IFF : Int := 14
def MK_IMPLIES : Int := 15
def MK_BV_CONST : Int := 16
def MK_BV_ADD : Int := 17
def MK_BV_SUB : Int := 18
def MK_BV_MUL : Int := 19
def MK_BV_NEG : Int := 20
def MK_BV_POW : Int := 21
def MK_BV_DIV : Int := 22
def MK_BV_REM : Int := 23
def MK_BV_SDIV : Int := 24
def MK_BV_SREM : Int := 25
def MK_BV_SMOD : Int := 26
def MK_BV_NOT : Int := 27
def MK_BV_AND : Int := 28
def MK_BV_OR : Int := 29
def MK_BV_XOR : Int := 30
def MK_BV_NAND : Int := 31
def MK_BV_NOR : Int := 32
def MK_BV_XNOR : Int := 33
def MK_BV_SHIFT_LEFT0 : Int := 34
def MK_BV_SHIFT_LEFT1 : Int := 35
def MK_BV_SHIFT_RIGHT0 : Int := 36
def MK_BV_SHIFT_RIGHT1 : Int := 37
def MK_BV_ASHIFT_RIGHT : Int := 38
def MK_BV_ROTATE_LEFT : Int := 39
def MK_BV_ROTATE_RIGHT : Int := 40
def MK_BV_SHL : Int := 41
def MK_BV_LSHR : Int := 42
def MK_BV_ASHR : Int := 43
def MK_BV_EXTRACT : Int := 44
def MK_BV_CONCAT : Int := 45
def MK_BV_REPEAT : Int := 46
def MK_BV_SIGN_EXTEND : Int := 47
def MK_BV_ZERO_EXTEND : Int := 48
def MK_BV_REDAND : Int := 49
def MK_BV_REDOR : Int := 50
def MK_BV_COMP : Int := 51
def MK_BV_GE : Int := 52
def MK_BV_GT : Int := 53
def MK_BV_LE : Int := 54
def MK_BV_LT : Int := 55
def MK_BV_SGE : Int := 56
def MK_BV_SGT : Int := 57
def MK_BV_SLE : Int := 58
def MK_BV_SLT : Int := 59
def BUILD_TERM : Int := 60
def BUILD_TYPE : Int := 61

/-- `NUM_BASE_OPCODES` (= BUILD_TYPE + 1). -/
def NUM_BASE_OPCODES : Nat := 62

/-- The bottom (sentinel) element placed at index 0 by `alloc_tstack`:
an OP cell with opcode `NO_OP`, multiplicity 0 and prev 0. -/
def sentinelElem : StackElem := ⟨.vop NO_OP 0 0, ⟨0, 0⟩⟩

end TermStack2

namespace TermStack2

/-- The stack state (`tstack_t`).  `elems` is the value array
(`elem[0 .. top-1]`, so `top = elems.length`); `frame` is the index of the
innermost OP cell and `top_op` a copy of its opcode.  The arena is
modelled by its scope-nesting depth.  `bva64`, `bva`, `bvl` are the three
buffer-pool slots (NULL = `none`).  `names` / `typeNames` model the
external yices name registries (most recent binding first); `nextBufId`
models the external buffer allocator, and `freedBufs` records the ids of
buffers handed back to `yices_free_*_buffer`.  The longjmp environment is
not part of the state (errors are modelled with `Except`). -/
structure TStack where
  elems : List StackElem
  frame : Nat
  top_op : Int
  arenaDepth : Nat
  bva64 : Option BvArith64Buffer
  bva : Option BvArithBuffer
  bvl : Option BvLogicBuffer
  tvar_id : Nat
  names : List (String × YTerm)
  typeNames : List (String × Int)
  nextBufId : Nat
  freedBufs : List Nat
  errorLoc : Loc
  errorOp : Int
  errorString : Option String
  resultTerm : Option YTerm
  resultType : Option Int
  deriving DecidableEq, Repr

/-- The error record carried by the modelled `longjmp`: the exception code
plus the diagnosis data that `raise_exception` / `push_exception` /
`report_yices_error` store in the stack before jumping. -/
structure ErrInfo where
  code : TstackError
  loc : Loc
  op : Int
  str : Option String
  deriving DecidableEq, Repr

/-- Read element `i` (reads are always in bounds in the C code; the
default element stands for out-of-range). -/
def elemAt (s : TStack) (i : Nat) : StackElem := s.elems.getD i defaultElem

/-- `alloc_tstack` / `init_tstack`: the freshly constructed stack.  The
operator table is modelled separately (see `OpTable` and, at the data
level, `OpTableData`); the external registries start empty. -/
def freshTStack : TStack where
  elems := [sentinelElem]
  frame := 0
  top_op := NO_OP
  arenaDepth := 0
  bva64 := none
  bva := none
  bvl := none
  tvar_id := 0
  names := []
  typeNames := []
  nextBufId := 0
  freedBufs := []
  errorLoc := ⟨0, 0⟩
  errorOp := NO_OP
  errorString := none
  resultTerm := none
  resultType := none

/-- `raise_exception stack e code`: record the offending element's
location, the current `top_op`, and the element's string (for symbols,
strings and bindings), and unwind. -/
def raise_exception (s : TStack) (e : StackElem) (code : TstackError) : ErrInfo :=
  { code := code
    loc := e.loc
    op := s.top_op
    str :=
      match e.val with
      | .vsymbol str => some str
      | .vstring str => some str
      | .vbinding _ sym => some sym
      | .vtypeBinding _ sym => some sym
      | _ => none }

/-- `push_exception stack loc s code`: error on a push operation
(`error_op` is `NO_OP`). -/
def push_exception (loc : Loc) (str : String) (code : TstackError) : ErrInfo :=
  { code := code, loc := loc, op := NO_OP, str := some str }

/-- `report_yices_error`: translate a yices-level failure into
`TSTACK_YICES_ERROR`, located at the current frame's OP cell. -/
def report_yices_error (s : TStack) : ErrInfo :=
  { code := .TSTACK_YICES_ERROR
    loc := (elemAt s s.frame).loc
    op := s.top_op
    str := none }

/-- Modelled from the spec: `yices_set_term_name` registers a
name-to-term binding in the external registry; later registrations of the
same name shadow earlier ones (LIFO shadow/restore, spec section 5). -/
def yices_set_term_name (s : TStack) (t : YTerm) (name : String) : TStack :=
  { s with names := (name, t) :: s.names }

/-- Modelled from the spec: `yices_get_term_by_name` returns the most
recent binding of the name, or none. -/
def yices_get_term_by_name (s : TStack) (name : String) : Option YTerm :=
  (s.names.find? (fun p => p.1 = name)).map (·.2)

/-- Remove the first entry with the given key from an association list. -/
def removeFirst (name : String) : List (String × YTerm) → List (String × YTerm)
  | [] => []
  | p :: rest => if p.1 = name then rest else p :: removeFirst name rest

/-- Modelled from the spec: `yices_remove_term_name` deletes the most
recent binding of the name, restoring whatever it shadowed. -/
def yices_remove_term_name (s : TStack) (name : String) : TStack :=
  { s with names := removeFirst name s.names }

/-- Remove the first entry with the given key (type registry version). -/
def removeFirstTy (name : String) : List (String × Int) → List (String × Int)
  | [] => []
  | p :: rest => if p.1 = name then rest else p :: removeFirstTy name rest

/-- Modelled from the spec: `yices_remove_type_name`. -/
def yices_remove_type_name (s : TStack) (name : String) : TStack :=
  { s with typeNames := removeFirstTy name s.typeNames }

/-- Modelled from the spec: `yices_set_type_name`. -/
def yices_set_type_name (s : TStack) (tau : Int) (name : String) : TStack :=
  { s with typeNames := (name, tau) :: s.typeNames }

end TermStack2

namespace TermStack2

/-- An operator-table entry for dispatch: the associativity flag and the
check/eval functions (`op_table_t` columns, with function pointers
modelled as Lean functions).  `check` never mutates the stack; `eval`
consumes it.  Both receive the index of the first argument cell and the
number of arguments. -/
structure OpEntry where
  assoc : Bool
  check : TStack → Nat → Nat → Except ErrInfo Unit
  evalOp : TStack → Nat → Nat → Except ErrInfo TStack

/-- The operator table used for dispatch, as a total map from opcodes. -/
def OpTable : Type := Int → OpEntry

/-- `tstack_get_bva64buffer stack bitsize`: return the pool's
bvarith64 buffer prepared to `bitsize` (allocating it on first use);
the pool slot keeps pointing to the returned (in-flight) buffer. -/
def tstack_get_bva64buffer (s : TStack) (bitsize : Nat) :
    TStack × BvArith64Buffer :=
  match s.bva64 with
  | none =>
    let b : BvArith64Buffer :=
      { id := s.nextBufId, bitsize := bitsize, cst := 0, journal := [] }
    ({ s with bva64 := some b, nextBufId := s.nextBufId + 1 }, b)
  | some b0 =>
    let b : BvArith64Buffer :=
      { b0 with bitsize := bitsize, cst := 0, journal := [] }
    ({ s with bva64 := some b }, b)

/-- `tstack_get_bvabuffer` (wide version). -/
def tstack_get_bvabuffer (s : TStack) (bitsize : Nat) :
    TStack × BvArithBuffer :=
  match s.bva with
  | none =>
    let b : BvArithBuffer :=
      { id := s.nextBufId, bitsize := bitsize, cst := 0, journal := [] }
    ({ s with bva := some b, nextBufId := s.nextBufId + 1 }, b)
  | some b0 =>
    let b : BvArithBuffer :=
      { b0 with bitsize := bitsize, cst := 0, journal := [] }
    ({ s with bva := some b }, b)

/-- `tstack_get_bvlbuffer`: return the pool's logic buffer, cleared. -/
def tstack_get_bvlbuffer (s : TStack) : TStack × BvLogicBuffer :=
  match s.bvl with
  | none =>
    let b : BvLogicBuffer := { id := s.nextBufId, bits := [] }
    ({ s with bvl := some b, nextBufId := s.nextBufId + 1 }, b)
  | some b0 =>
    let b : BvLogicBuffer := { b0 with bits := [] }
    ({ s with bvl := some b }, b)

/-- `recycle_bva64buffer stack b`: if the pool slot is empty, store `b`
back (re-prepared); if it holds a different buffer, free `b`; if it
already holds `b` itself, do nothing. -/
def recycle_bva64buffer (s : TStack) (b : BvArith64Buffer) : TStack :=
  match s.bva64 with
  | none =>
    { s with bva64 := some { b with bitsize := 32, cst := 0, journal := [] } }
  | some b0 =>
    if b0.id ≠ b.id then { s with freedBufs := b.id :: s.freedBufs } else s

/-- `recycle_bvabuffer` (wide version; re-prepared to bitsize 100). -/
def recycle_bvabuffer (s : TStack) (b : BvArithBuffer) : TStack :=
  match s.bva with
  | none =>
    { s with bva := some { b with bitsize := 100, cst := 0, journal := [] } }
  | some b0 =>
    if b0.id ≠ b.id then { s with freedBufs := b.id :: s.freedBufs } else s

/-- `recycle_bvlbuffer`. -/
def recycle_bvlbuffer (s : TStack) (b : BvLogicBuffer) : TStack :=
  match s.bvl with
  | none => { s with bvl := some { b with bits := [] } }
  | some b0 =>
    if b0.id ≠ b.id then { s with freedBufs := b.id :: s.freedBufs } else s

/-- `tstack_free_val stack e`: clean up element `e` before removal:
free wide constants and rationals (value semantics here), release
attribute references, recycle or free accumulator buffers, and remove
binding names from the external registries. -/
def tstack_free_val (s : TStack) (e : StackElem) : TStack :=
  match e.val with
  | .vbvarith64 b => recycle_bva64buffer s b
  | .vbvarith b => recycle_bvabuffer s b
  | .vbvlogic b => recycle_bvlbuffer s b
  | .vbinding _ sym => yices_remove_term_name s sym
  | .vtypeBinding _ sym => yices_remove_type_name s sym
  | _ => s

/-- Free a list of elements in order (used top-down, i.e. on a reversed
suffix of the value array). -/
def freeElems (s : TStack) (L : List StackElem) : TStack :=
  L.foldl tstack_free_val s

/-- `tstack_reset`: walk the whole array top-down freeing every element,
reset the arena, truncate to the sentinel (`top = 1`, `frame = 0`,
`top_op = NO_OP`), reset the fresh-variable counter and clear the error
context. -/
def tstack_reset (s : TStack) : TStack :=
  let s1 := freeElems s s.elems.reverse
  { s1 with
    elems := s.elems.take 1
    frame := 0
    top_op := NO_OP
    arenaDepth := 0
    tvar_id := 0
    errorOp := NO_OP
    errorLoc := ⟨0, 0⟩
    errorString := none }

/-- `tstack_pop_frame`: restore the previous frame and `top_op` from the
OP cell's `prev` field, free all elements above the OP cell, truncate,
and close the arena scope unless the popped operator is `BIND`. -/
def tstack_pop_frame (s : TStack) : TStack :=
  let op := s.top_op
  let n := s.frame
  let prev := match (elemAt s n).val with
    | .vop _ _ p => p
    | _ => 0
  let newTopOp := match (elemAt s prev).val with
    | .vop oc _ _ => oc
    | _ => NO_OP
  let kept := s.elems.take (n + 1)
  let removed := s.elems.drop (n + 1)
  let s1 := freeElems { s with elems := kept, frame := prev, top_op := newTopOp }
    removed.reverse
  if op ≠ BIND then { s1 with arenaDepth := s1.arenaDepth - 1 } else s1

/-- `copy_result_and_pop_frame stack v`: copy the element at index
`vIdx` over the current frame's OP cell, mark the source as `TAG_NONE`
(so its value is not freed twice), free the remaining elements above the
frame, truncate, and close the arena scope unless the operator is `BIND`. -/
def copy_result_and_pop_frame (s : TStack) (vIdx : Nat) : TStack :=
  let op := s.top_op
  let n := s.frame
  let v := elemAt s vIdx
  let prev := match (elemAt s n).val with
    | .vop _ _ p => p
    | _ => 0
  let newTopOp := match (elemAt s prev).val with
    | .vop oc _ _ => oc
    | _ => NO_OP
  let elems1 := (s.elems.set n v).set vIdx ⟨.vnone, v.loc⟩
  let kept := elems1.take (n + 1)
  let removed := elems1.drop (n + 1)
  let s1 := freeElems { s with elems := kept, frame := prev, top_op := newTopOp }
    removed.reverse
  if op ≠ BIND then { s1 with arenaDepth := s1.arenaDepth - 1 } else s1

/-- Overwrite the payload of the top element, keeping its location
(common body of the `set_..._result` functions). -/
def setTopVal (s : TStack) (v : StackVal) : TStack :=
  let i := s.elems.length - 1
  { s with elems := s.elems.set i { elemAt s i with val := v } }

/-- `set_term_result`. -/
def set_term_result (s : TStack) (t : YTerm) : TStack :=
  setTopVal s (.vterm t)

/-- `set_type_result`. -/
def set_type_result (s : TStack) (tau : Int) : TStack :=
  setTopVal s (.vtype tau)

/-- `set_bvarith64_result`: clear the pool slot (the buffer is now owned
by the top cell) and store the buffer in the top element. -/
def set_bvarith64_result (s : TStack) (b : BvArith64Buffer) : TStack :=
  setTopVal { s with bva64 := none } (.vbvarith64 b)

/-- `set_bvarith_result` (wide version). -/
def set_bvarith_result (s : TStack) (b : BvArithBuffer) : TStack :=
  setTopVal { s with bva := none } (.vbvarith b)

/-- `set_bvlogic_result`. -/
def set_bvlogic_result (s : TStack) (b : BvLogicBuffer) : TStack :=
  setTopVal { s with bvl := none } (.vbvlogic b)

/-- `set_binding_result`. -/
def set_binding_result (s : TStack) (t : YTerm) (symbol : String) : TStack :=
  setTopVal s (.vbinding t symbol)

/-- `set_bv64_result`. -/
def set_bv64_result (s : TStack) (nbits : Nat) (c : Nat) : TStack :=
  setTopVal s (.vbv64 nbits c)

/-- `set_bv_result`. -/
def set_bv_result (s : TStack) (nbits : Nat) (bv : Nat) : TStack :=
  setTopVal s (.vbv nbits bv)

/-- `no_result`: drop the top element. -/
def no_result (s : TStack) : TStack :=
  { s with elems := s.elems.dropLast }

end TermStack2

namespace TermStack2

/-- Append one element to the value array (`tstack_get_topelem` plus the
assignment the push functions perform). -/
def tstack_push_cell (s : TStack) (v : StackVal) (loc : Loc) : TStack :=
  { s with elems := s.elems ++ [⟨v, loc⟩] }

/-- `tstack_push_op` (release build: the `#ifndef NDEBUG` validity check
is absent).  If `op` is associative and equal to the current frame's
opcode, just increment that frame's multiplicity.  Otherwise append a new
OP cell, link the previous frame, set `top_op`, and open a new arena
scope unless `op` is `BIND`. -/
def tstack_push_op (tbl : OpTable) (s : TStack) (op : Int) (loc : Loc) : TStack :=
  if (tbl op).assoc ∧ s.top_op = op then
    let i := s.frame
    { s with
      elems := s.elems.set i
        (match (elemAt s i).val with
          | .vop oc m p => ⟨.vop oc (m + 1) p, (elemAt s i).loc⟩
          | _ => elemAt s i) }
  else
    let i := s.elems.length
    let s :=
      { s with
        elems := s.elems ++ [⟨.vop op 0 s.frame, loc⟩]
        top_op := op
        frame := i }
    if op ≠ BIND then { s with arenaDepth := s.arenaDepth + 1 } else s

/-- `tstack_push_str`: push a (arena-copied) string or symbol. -/
def tstack_push_str (s : TStack) (tg : Tag) (str : String) (loc : Loc) : TStack :=
  tstack_push_cell s (if tg = .TAG_SYMBOL then .vsymbol str else .vstring str) loc

/-- `tstack_push_symbol`. -/
def tstack_push_symbol (s : TStack) (str : String) (loc : Loc) : TStack :=
  tstack_push_str s .TAG_SYMBOL str loc

/-- `tstack_push_free_typename`: like push-symbol but fails with
`TSTACK_TYPENAME_REDEF` if the name is already a type name. -/
def tstack_push_free_typename (s : TStack) (str : String) (loc : Loc) :
    Except ErrInfo TStack :=
  if (s.typeNames.find? (fun p => p.1 = str)).isSome then
    .error (push_exception loc str .TSTACK_TYPENAME_REDEF)
  else .ok (tstack_push_str s .TAG_SYMBOL str loc)

/-- `tstack_push_bv64`: push a small bit-vector constant
(callers guarantee `1 ≤ n ≤ 64` and `c = norm64 c n`, per the assert). -/
def tstack_push_bv64 (s : TStack) (n : Nat) (c : Nat) (loc : Loc) : TStack :=
  tstack_push_cell s (.vbv64 n c) loc

/-- `tstack_push_bv`: push a wide bit-vector constant (`n > 64`). -/
def tstack_push_bv (s : TStack) (n : Nat) (c : Nat) (loc : Loc) : TStack :=
  tstack_push_cell s (.vbv n c) loc

/-- `tstack_push_int32` (`q_set32`): push a 32-bit integer as a rational. -/
def tstack_push_int32 (s : TStack) (x : Int) (loc : Loc) : TStack :=
  tstack_push_cell s (.vrational (x : Rat)) loc

/-- `tstack_push_term`. -/
def tstack_push_term (s : TStack) (t : YTerm) (loc : Loc) : TStack :=
  tstack_push_cell s (.vterm t) loc

/-- `tstack_push_true` (`yices_true()`). -/
def tstack_push_true (s : TStack) (loc : Loc) : TStack :=
  tstack_push_cell s (.vterm .trueTm) loc

/-- `tstack_push_false`. -/
def tstack_push_false (s : TStack) (loc : Loc) : TStack :=
  tstack_push_cell s (.vterm .falseTm) loc

/-- `tstack_push_term_by_name`: resolve the name through the external
registry and push the term; fail with `TSTACK_UNDEF_TERM` otherwise. -/
def tstack_push_term_by_name (s : TStack) (str : String) (loc : Loc) :
    Except ErrInfo TStack :=
  match yices_get_term_by_name s str with
  | none => .error (push_exception loc str .TSTACK_UNDEF_TERM)
  | some t => .ok (tstack_push_cell s (.vterm t) loc)

/-- `tstack_eval`: if the current frame's multiplicity is positive,
decrement it and do nothing (associative fold); otherwise dispatch the
check and eval functions of the current `top_op` on the frame's
arguments. -/
def tstack_eval (tbl : OpTable) (s : TStack) : Except ErrInfo TStack :=
  let i := s.frame
  match (elemAt s i).val with
  | .vop oc (m + 1) p =>
    .ok { s with elems := s.elems.set i ⟨.vop oc m p, (elemAt s i).loc⟩ }
  | _ =>
    let op := s.top_op
    let n := s.elems.length - s.frame - 1
    let f := s.frame + 1
    do
      (tbl op).check s f n
      (tbl op).evalOp s f n

end TermStack2

namespace TermStack2

/-- Modelled from the spec: the bitsize of a bit-vector term, or `none`
if the term is not a bit-vector (`yices_check_bv_term` plus
`term_bitsize`). -/
def YTerm.bvsize? : YTerm → Option Nat
  | .bvconst64 w _ => some w
  | .bvconstW w _ => some w
  | .bvvar _ w => some w
  | .bvApp1 _ w _ => some w
  | .bvApp2 _ w _ _ => some w
  | .bvFromBits w _ => some w
  | _ => none

/-- Modelled from the spec: `yices_bvconst64_term`. -/
def yices_bvconst64_term (w c : Nat) : YTerm := .bvconst64 w c

/-- Modelled from the spec: `yices_bvconst_term` (wide constants). -/
def yices_bvconst_term (w c : Nat) : YTerm := .bvconstW w c

/-- Modelled from the spec: `yices_or` over the collected argument terms;
a singleton disjunction is the term itself. -/
def yices_or (ts : List YTerm) : YTerm :=
  match ts with
  | [] => .falseTm
  | [t] => t
  | t :: rest => rest.foldl .or2 t

/-- Modelled from the spec: `yices_and`; a singleton conjunction is the
term itself. -/
def yices_and (ts : List YTerm) : YTerm :=
  match ts with
  | [] => .trueTm
  | [t] => t
  | t :: rest => rest.foldl .and2 t

/-- Modelled from the spec: `yices_xor`; a singleton is the term itself. -/
def yices_xor (ts : List YTerm) : YTerm :=
  match ts with
  | [] => .falseTm
  | [t] => t
  | t :: rest => rest.foldl .xor2 t

/-- Modelled from the spec: `bvarith64_buffer_get_term` — a buffer with
no non-constant monomials denotes its (normalized) constant; otherwise an
opaque polynomial term. -/
def bvarith64_buffer_get_term (b : BvArith64Buffer) : YTerm :=
  match b.journal with
  | [] => .bvconst64 b.bitsize (b.cst % 2 ^ b.bitsize)
  | _ =>
    b.journal.foldl (fun acc p => .bvApp2 p.1 b.bitsize acc p.2)
      (.bvconst64 b.bitsize (b.cst % 2 ^ b.bitsize))

/-- Modelled from the spec: `bvarith_buffer_get_term` (wide version). -/
def bvarith_buffer_get_term (b : BvArithBuffer) : YTerm :=
  match b.journal with
  | [] => .bvconstW b.bitsize (b.cst % 2 ^ b.bitsize)
  | _ =>
    b.journal.foldl (fun acc p => .bvApp2 p.1 b.bitsize acc p.2)
      (.bvconstW b.bitsize (b.cst % 2 ^ b.bitsize))

/-- Modelled from the spec: `bvlogic_buffer_get_term` — a constant bit
array denotes the corresponding constant (small or wide); a symbolic one
is an opaque bit-array term. -/
def bvlogic_buffer_get_term (b : BvLogicBuffer) : YTerm :=
  if bitsConstant b.bits then
    if b.bits.length ≤ 64 then .bvconst64 b.bits.length (bitsValue b.bits)
    else .bvconstW b.bits.length (bitsValue b.bits)
  else .bvFromBits b.bits.length (BitSeq.ofList b.bits)

end TermStack2

namespace TermStack2

/-- Modelled from the spec: `bvarith64_buffer_add_const` (addition of a
constant monomial, modulo `2 ^ bitsize`). -/
def bv64add_const (b : BvArith64Buffer) (c : Nat) : BvArith64Buffer :=
  { b with cst := (b.cst + c) % 2 ^ b.bitsize }

/-- Modelled from the spec: `bvarith64_buffer_sub_const`. -/
def bv64sub_const (b : BvArith64Buffer) (c : Nat) : BvArith64Buffer :=
  { b with cst := (b.cst + (2 ^ b.bitsize - c % 2 ^ b.bitsize)) % 2 ^ b.bitsize }

/-- Modelled from the spec: `bvarith64_buffer_add_term` (opaque monomial
journal entry, tag 0). -/
def bv64add_term (b : BvArith64Buffer) (t : YTerm) : BvArith64Buffer :=
  { b with journal := b.journal ++ [(0, t)] }

/-- Modelled from the spec: `bvarith64_buffer_sub_term` (tag 1). -/
def bv64sub_term (b : BvArith64Buffer) (t : YTerm) : BvArith64Buffer :=
  { b with journal := b.journal ++ [(1, t)] }

/-- Modelled from the spec: `bvarith64_buffer_mul_term` (tag 2). -/
def bv64mul_term (b : BvArith64Buffer) (t : YTerm) : BvArith64Buffer :=
  { b with journal := b.journal ++ [(2, t)] }

/-- Modelled from the spec: `bvarith64_buffer_add_buffer`. -/
def bv64add_buffer (b e : BvArith64Buffer) : BvArith64Buffer :=
  { b with cst := (b.cst + e.cst) % 2 ^ b.bitsize, journal := b.journal ++ e.journal }

/-- Modelled from the spec: `bvarith64_buffer_sub_buffer`. -/
def bv64sub_buffer (b e : BvArith64Buffer) : BvArith64Buffer :=
  { b with
    cst := (b.cst + (2 ^ b.bitsize - e.cst % 2 ^ b.bitsize)) % 2 ^ b.bitsize
    journal := b.journal ++ e.journal.map (fun p => (p.1 + 10, p.2)) }

/-- Modelled from the spec: `bvarith64_buffer_mul_const` — multiplies
every monomial; on a constant buffer this scales the constant. -/
def bv64mul_const (b : BvArith64Buffer) (c : Nat) : BvArith64Buffer :=
  { b with
    cst := (b.cst * c) % 2 ^ b.bitsize
    journal := b.journal.map (fun p => (p.1 + 20, p.2)) }

/-- Modelled from the spec: `bvarith64_buffer_mul_buffer`. -/
def bv64mul_buffer (b e : BvArith64Buffer) : BvArith64Buffer :=
  { b with
    cst := (b.cst * e.cst) % 2 ^ b.bitsize
    journal := (b.journal ++ e.journal).map (fun p => (p.1 + 30, p.2)) }

/-- Modelled from the spec: `bvarith64_buffer_negate` (negate every
coefficient; a constant buffer stays constant). -/
def bv64negate (b : BvArith64Buffer) : BvArith64Buffer :=
  { b with
    cst := (2 ^ b.bitsize - b.cst % 2 ^ b.bitsize) % 2 ^ b.bitsize
    journal := b.journal.map (fun p => (p.1 + 40, p.2)) }

/-- Modelled from the spec: `bvarith_buffer_add_const` (wide). -/
def bvwadd_const (b : BvArithBuffer) (c : Nat) : BvArithBuffer :=
  { b with cst := (b.cst + c) % 2 ^ b.bitsize }

/-- Modelled from the spec: `bvarith_buffer_sub_const` (wide). -/
def bvwsub_const (b : BvArithBuffer) (c : Nat) : BvArithBuffer :=
  { b with cst := (b.cst + (2 ^ b.bitsize - c % 2 ^ b.bitsize)) % 2 ^ b.bitsize }

/-- Modelled from the spec: `bvarith_buffer_add_term` (wide, tag 0). -/
def bvwadd_term (b : BvArithBuffer) (t : YTerm) : BvArithBuffer :=
  { b with journal := b.journal ++ [(0, t)] }

/-- Modelled from the spec: `bvarith_buffer_sub_term` (wide, tag 1). -/
def bvwsub_term (b : BvArithBuffer) (t : YTerm) : BvArithBuffer :=
  { b with journal := b.journal ++ [(1, t)] }

/-- Modelled from the spec: `bvarith_buffer_mul_term` (wide, tag 2). -/
def bvwmul_term (b : BvArithBuffer) (t : YTerm) : BvArithBuffer :=
  { b with journal := b.journal ++ [(2, t)] }

/-- Modelled from the spec: `bvarith_buffer_add_buffer` (wide). -/
def bvwadd_buffer (b e : BvArithBuffer) : BvArithBuffer :=
  { b with cst := (b.cst + e.cst) % 2 ^ b.bitsize, journal := b.journal ++ e.journal }

/-- Modelled from the spec: `bvarith_buffer_sub_buffer` (wide). -/
def bvwsub_buffer (b e : BvArithBuffer) : BvArithBuffer :=
  { b with
    cst := (b.cst + (2 ^ b.bitsize - e.cst % 2 ^ b.bitsize)) % 2 ^ b.bitsize
    journal := b.journal ++ e.journal.map (fun p => (p.1 + 10, p.2)) }

/-- Modelled from the spec: `bvarith_buffer_mul_const` (wide). -/
def bvwmul_const (b : BvArithBuffer) (c : Nat) : BvArithBuffer :=
  { b with
    cst := (b.cst * c) % 2 ^ b.bitsize
    journal := b.journal.map (fun p => (p.1 + 20, p.2)) }

/-- Modelled from the spec: `bvarith_buffer_mul_buffer` (wide). -/
def bvwmul_buffer (b e : BvArithBuffer) : BvArithBuffer :=
  { b with
    cst := (b.cst * e.cst) % 2 ^ b.bitsize
    journal := (b.journal ++ e.journal).map (fun p => (p.1 + 30, p.2)) }

/-- Modelled from the spec: `bvarith_buffer_negate` (wide). -/
def bvwnegate (b : BvArithBuffer) : BvArithBuffer :=
  { b with
    cst := (2 ^ b.bitsize - b.cst % 2 ^ b.bitsize) % 2 ^ b.bitsize
    journal := b.journal.map (fun p => (p.1 + 40, p.2)) }

/-- Logical complement of one (possibly symbolic) bit. -/
def bitNot : Bit → Bit
  | .bconst v => .bconst (!v)
  | x => .bnot x

/-- Conjunction of two bits (folds constants). -/
def bitAnd (x y : Bit) : Bit :=
  match x, y with
  | .bconst a, .bconst b => .bconst (a && b)
  | _, _ => .band x y

/-- Disjunction of two bits. -/
def bitOr (x y : Bit) : Bit :=
  match x, y with
  | .bconst a, .bconst b => .bconst (a || b)
  | _, _ => .bor x y

/-- Exclusive or of two bits. -/
def bitXor (x y : Bit) : Bit :=
  match x, y with
  | .bconst a, .bconst b => .bconst (xor a b)
  | _, _ => .bxor x y

/-- Modelled from the spec: the bit array of a term of bitsize `w`. -/
def termBits (t : YTerm) (w : Nat) : List Bit :=
  match t with
  | .bvconst64 _ v => constBits w v
  | .bvconstW _ v => constBits w v
  | _ => (List.range w).map (fun i => Bit.bsel t i)

/-- Modelled from the spec: `bvlogic_buffer_set_constant64`. -/
def bvlSetConstant64 (b : BvLogicBuffer) (n v : Nat) : BvLogicBuffer :=
  { b with bits := constBits n v }

/-- Modelled from the spec: `bvlogic_buffer_set_constant` (wide). -/
def bvlSetConstant (b : BvLogicBuffer) (n v : Nat) : BvLogicBuffer :=
  { b with bits := constBits n v }

/-- Modelled from the spec: `bvlogic_buffer_set_term` (the term is known
to be a bit-vector of bitsize `w`). -/
def bvlSetTerm (b : BvLogicBuffer) (t : YTerm) (w : Nat) : BvLogicBuffer :=
  { b with bits := termBits t w }

/-- Modelled from the spec: `bvlogic_buffer_set_buffer`. -/
def bvlSetBuffer (b e : BvLogicBuffer) : BvLogicBuffer :=
  { b with bits := e.bits }

/-- Modelled from the spec: `bvlogic_buffer_not`. -/
def bvlNot (b : BvLogicBuffer) : BvLogicBuffer :=
  { b with bits := b.bits.map bitNot }

/-- Modelled from the spec: `bvlogic_buffer_and_buffer` (pointwise). -/
def bvlAndBits (b : BvLogicBuffer) (other : List Bit) : BvLogicBuffer :=
  { b with bits := List.zipWith bitAnd b.bits other }

/-- Modelled from the spec: `bvlogic_buffer_or_buffer` (pointwise). -/
def bvlOrBits (b : BvLogicBuffer) (other : List Bit) : BvLogicBuffer :=
  { b with bits := List.zipWith bitOr b.bits other }

/-- Modelled from the spec: `bvlogic_buffer_xor_buffer` (pointwise). -/
def bvlXorBits (b : BvLogicBuffer) (other : List Bit) : BvLogicBuffer :=
  { b with bits := List.zipWith bitXor b.bits other }

/-- Modelled from the spec: `bvlogic_buffer_concat_right` — the other
operand supplies the low-order bits. -/
def bvlConcatRight (b : BvLogicBuffer) (other : List Bit) : BvLogicBuffer :=
  { b with bits := other ++ b.bits }

/-- Modelled from the spec: `bvlogic_buffer_rotate_left` (by `0 ≤ k < n`). -/
def bvlRotateLeft (b : BvLogicBuffer) (k : Nat) : BvLogicBuffer :=
  { b with bits := b.bits.drop (b.bits.length - k) ++ b.bits.take (b.bits.length - k) }

/-- Modelled from the spec: `bvlogic_buffer_rotate_right` (by `0 ≤ k < n`). -/
def bvlRotateRight (b : BvLogicBuffer) (k : Nat) : BvLogicBuffer :=
  { b with bits := b.bits.drop k ++ b.bits.take k }

/-- Modelled from the spec: the slice `[i .. j]` of a list of bits. -/
def bitsSlice (bs : List Bit) (i j : Nat) : List Bit :=
  (bs.drop i).take (j + 1 - i)

/-- Modelled from the spec: `bvlogic_buffer_set_slice_constant64`. -/
def bvlSetSliceConstant64 (b : BvLogicBuffer) (i j v : Nat) : BvLogicBuffer :=
  { b with bits := (List.range (j + 1 - i)).map (fun p => Bit.bconst (v.testBit (i + p))) }

/-- Modelled from the spec: `bvlogic_buffer_set_slice_constant` (wide). -/
def bvlSetSliceConstant (b : BvLogicBuffer) (i j v : Nat) : BvLogicBuffer :=
  { b with bits := (List.range (j + 1 - i)).map (fun p => Bit.bconst (v.testBit (i + p))) }

/-- Modelled from the spec: `bvlogic_buffer_set_slice_term` (the term has
bitsize `w`). -/
def bvlSetSliceTerm (b : BvLogicBuffer) (i j : Nat) (t : YTerm) (w : Nat) : BvLogicBuffer :=
  { b with bits := bitsSlice (termBits t w) i j }

/-- Modelled from the spec: `bvlogic_buffer_set_slice_buffer`. -/
def bvlSetSliceBuffer (b : BvLogicBuffer) (i j : Nat) (e : BvLogicBuffer) : BvLogicBuffer :=
  { b with bits := bitsSlice e.bits i j }

end TermStack2

namespace TermStack2

/-- `invalid_tag tg`: the error code raised when an element does not have
the expected tag. -/
def invalid_tag (tg : Tag) : TstackError :=
  match tg with
  | .TAG_SYMBOL => .TSTACK_NOT_A_SYMBOL
  | .TAG_RATIONAL => .TSTACK_NOT_A_RATIONAL
  | .TAG_TYPE => .TSTACK_NOT_A_TYPE
  | _ => .TSTACK_INTERNAL_ERROR

/-- `check_tag`. -/
def check_tag (s : TStack) (e : StackElem) (tg : Tag) : Except ErrInfo Unit :=
  if e.val.tag ≠ tg then .error (raise_exception s e (invalid_tag tg)) else .ok ()

/-- `check_op`: the current `top_op` must be `op`. -/
def check_op (s : TStack) (op : Int) : Except ErrInfo Unit :=
  if s.top_op ≠ op then
    .error (raise_exception s (elemAt s s.frame) .TSTACK_INTERNAL_ERROR)
  else .ok ()

/-- `check_size`: raise `TSTACK_INVALID_FRAME` unless the condition holds. -/
def check_size (s : TStack) (cond : Bool) : Except ErrInfo Unit :=
  if !cond then
    .error (raise_exception s (elemAt s s.frame) .TSTACK_INVALID_FRAME)
  else .ok ()

/-- `check_all_tags` over elements `fIdx .. endIdx - 1`. -/
def check_all_tags (s : TStack) (fIdx endIdx : Nat) (tg : Tag) : Except ErrInfo Unit :=
  (List.range (endIdx - fIdx)).foldlM
    (fun _ i => check_tag s (elemAt s (fIdx + i)) tg) ()

/-- `get_term`: convert element `e` to a term or raise an exception.
Note the `TAG_BV64` case re-normalizes the value before building the
constant term. -/
def get_term (s : TStack) (e : StackElem) : Except ErrInfo YTerm :=
  match e.val with
  | .vterm t => .ok t
  | .vsymbol str =>
    match yices_get_term_by_name s str with
    | some t => .ok t
    | none => .error (raise_exception s e .TSTACK_UNDEF_TERM)
  | .vbv64 w v => .ok (yices_bvconst64_term w (norm64 v w))
  | .vbv w v => .ok (yices_bvconst_term w (v % 2 ^ w))
  | .vbvarith64 b => .ok (bvarith64_buffer_get_term b)
  | .vbvarith b => .ok (bvarith_buffer_get_term b)
  | .vbvlogic b => .ok (bvlogic_buffer_get_term b)
  | _ => .error (raise_exception s e .TSTACK_INTERNAL_ERROR)

/-- `get_integer`: the signed-32-bit value of a rational element, raising
`TSTACK_INTEGER_OVERFLOW` or `TSTACK_NOT_AN_INTEGER` as in the source
(`q_get32` / `q_is_integer`). -/
def get_integer (s : TStack) (e : StackElem) : Except ErrInfo Int :=
  match e.val with
  | .vrational q =>
    if q.den = 1 ∧ -2147483648 ≤ q.num ∧ q.num ≤ 2147483647 then .ok q.num
    else if q.den = 1 then .error (raise_exception s e .TSTACK_INTEGER_OVERFLOW)
    else .error (raise_exception s e .TSTACK_NOT_AN_INTEGER)
  | _ => .error (raise_exception s e .TSTACK_INTERNAL_ERROR)

/-- Modelled from the spec: `yices_check_bvlogic_buffer` (a logic buffer
is usable only when non-empty). -/
def yices_check_bvlogic_buffer (b : BvLogicBuffer) : Bool :=
  b.bits.length ≠ 0

/-- `elem_bitsize`: the bitsize of a bit-vector element (any of the
carriers), raising `TSTACK_BVARITH_ERROR` for non-bit-vector tags and a
yices error for non-bit-vector terms or empty logic buffers. -/
def elem_bitsize (s : TStack) (e : StackElem) : Except ErrInfo Nat :=
  match e.val with
  | .vbv64 w _ => .ok w
  | .vbv w _ => .ok w
  | .vterm t =>
    match t.bvsize? with
    | some w => .ok w
    | none => .error (report_yices_error s)
  | .vbvarith64 b => .ok b.bitsize
  | .vbvarith b => .ok b.bitsize
  | .vbvlogic b =>
    if !yices_check_bvlogic_buffer b then .error (report_yices_error s)
    else .ok b.bits.length
  | _ => .error (raise_exception s e .TSTACK_BVARITH_ERROR)

/-- `check_bv_term`: the element (a TERM cell) must be a bit-vector term
of bitsize `n`. -/
def check_bv_term (s : TStack) (e : StackElem) (n : Nat) : Except ErrInfo Unit :=
  match e.val with
  | .vterm t =>
    match t.bvsize? with
    | none => .error (report_yices_error s)
    | some w =>
      if w ≠ n then .error (raise_exception s e .TSTACK_INCOMPATIBLE_BVSIZES)
      else .ok ()
  | _ => .error (raise_exception s e .TSTACK_INTERNAL_ERROR)

/-- Modelled from the spec: `term_kind` distinguishing bit-vector constant
terms (for `elem_is_bvconst`). -/
def YTerm.isBvConstant : YTerm → Bool
  | .bvconst64 _ _ => true
  | .bvconstW _ _ => true
  | _ => false

/-- `elem_is_bvconst`: whether the element is structurally a bit-vector
constant (literal, constant term, constant polynomial, or constant logic
buffer). -/
def elem_is_bvconst (e : StackElem) : Bool :=
  match e.val with
  | .vbv64 _ _ => true
  | .vbv _ _ => true
  | .vterm t => t.isBvConstant
  | .vbvarith64 b => b.journal.isEmpty
  | .vbvarith b => b.journal.isEmpty
  | .vbvlogic b => bitsConstant b.bits
  | _ => false

end TermStack2

namespace TermStack2

/-- `bva64_add_elem`: add element `e` to the 64-bit polynomial buffer,
raising `TSTACK_INCOMPATIBLE_BVSIZES` on bitsize mismatch and
`TSTACK_BVARITH_ERROR` on non-bit-vector tags. -/
def bva64_add_elem (s : TStack) (b : BvArith64Buffer) (e : StackElem) :
    Except ErrInfo BvArith64Buffer :=
  let n := b.bitsize
  match e.val with
  | .vbv64 w v =>
    if w ≠ n then .error (raise_exception s e .TSTACK_INCOMPATIBLE_BVSIZES)
    else .ok (bv64add_const b v)
  | .vbv _ _ => .error (raise_exception s e .TSTACK_INCOMPATIBLE_BVSIZES)
  | .vterm t => do
    check_bv_term s e n
    .ok (bv64add_term b t)
  | .vbvarith64 eb =>
    if eb.bitsize ≠ n then .error (raise_exception s e .TSTACK_INCOMPATIBLE_BVSIZES)
    else .ok (bv64add_buffer b eb)
  | .vbvarith _ => .error (raise_exception s e .TSTACK_INCOMPATIBLE_BVSIZES)
  | .vbvlogic lb =>
    if lb.bits.length ≠ n then .error (raise_exception s e .TSTACK_INCOMPATIBLE_BVSIZES)
    else .ok (bv64add_term b (bvlogic_buffer_get_term lb))
  | _ => .error (raise_exception s e .TSTACK_BVARITH_ERROR)

/-- `bva64_sub_elem`. -/
def bva64_sub_elem (s : TStack) (b : BvArith64Buffer) (e : StackElem) :
    Except ErrInfo BvArith64Buffer :=
  let n := b.bitsize
  match e.val with
  | .vbv64 w v =>
    if w ≠ n then .error (raise_exception s e .TSTACK_INCOMPATIBLE_BVSIZES)
    else .ok (bv64sub_const b v)
  | .vbv _ _ => .error (raise_exception s e .TSTACK_INCOMPATIBLE_BVSIZES)
  | .vterm t => do
    check_bv_term s e n
    .ok (bv64sub_term b t)
  | .vbvarith64 eb =>
    if eb.bitsize ≠ n then .error (raise_exception s e .TSTACK_INCOMPATIBLE_BVSIZES)
    else .ok (bv64sub_buffer b eb)
  | .vbvarith _ => .error (raise_exception s e .TSTACK_INCOMPATIBLE_BVSIZES)
  | .vbvlogic lb =>
    if lb.bits.length ≠ n then .error (raise_exception s e .TSTACK_INCOMPATIBLE_BVSIZES)
    else .ok (bv64sub_term b (bvlogic_buffer_get_term lb))
  | _ => .error (raise_exception s e .TSTACK_BVARITH_ERROR)

/-- `bva64_mul_elem` (degree-overflow checks of the external builder are
not modelled: `yices_check_bvmul64_term` is taken to succeed). -/
def bva64_mul_elem (s : TStack) (b : BvArith64Buffer) (e : StackElem) :
    Except ErrInfo BvArith64Buffer :=
  let n := b.bitsize
  match e.val with
  | .vbv64 w v =>
    if w ≠ n then .error (raise_exception s e .TSTACK_INCOMPATIBLE_BVSIZES)
    else .ok (bv64mul_const b v)
  | .vbv _ _ => .error (raise_exception s e .TSTACK_INCOMPATIBLE_BVSIZES)
  | .vterm t => do
    check_bv_term s e n
    .ok (bv64mul_term b t)
  | .vbvarith64 eb =>
    if eb.bitsize ≠ n then .error (raise_exception s e .TSTACK_INCOMPATIBLE_BVSIZES)
    else .ok (bv64mul_buffer b eb)
  | .vbvarith _ => .error (raise_exception s e .TSTACK_INCOMPATIBLE_BVSIZES)
  | .vbvlogic lb =>
    if lb.bits.length ≠ n then .error (raise_exception s e .TSTACK_INCOMPATIBLE_BVSIZES)
    else .ok (bv64mul_term b (bvlogic_buffer_get_term lb))
  | _ => .error (raise_exception s e .TSTACK_BVARITH_ERROR)

/-- `bva_add_elem` (wide buffers, bitsize > 64). -/
def bva_add_elem (s : TStack) (b : BvArithBuffer) (e : StackElem) :
    Except ErrInfo BvArithBuffer :=
  let n := b.bitsize
  match e.val with
  | .vbv64 _ _ => .error (raise_exception s e .TSTACK_INCOMPATIBLE_BVSIZES)
  | .vbv w v =>
    if w ≠ n then .error (raise_exception s e .TSTACK_INCOMPATIBLE_BVSIZES)
    else .ok (bvwadd_const b v)
  | .vterm t => do
    check_bv_term s e n
    .ok (bvwadd_term b t)
  | .vbvarith64 _ => .error (raise_exception s e .TSTACK_INCOMPATIBLE_BVSIZES)
  | .vbvarith eb =>
    if eb.bitsize ≠ n then .error (raise_exception s e .TSTACK_INCOMPATIBLE_BVSIZES)
    else .ok (bvwadd_buffer b eb)
  | .vbvlogic lb =>
    if lb.bits.length ≠ n then .error (raise_exception s e .TSTACK_INCOMPATIBLE_BVSIZES)
    else .ok (bvwadd_term b (bvlogic_buffer_get_term lb))
  | _ => .error (raise_exception s e .TSTACK_BVARITH_ERROR)

/-- `bva_sub_elem` (wide). -/
def bva_sub_elem (s : TStack) (b : BvArithBuffer) (e : StackElem) :
    Except ErrInfo BvArithBuffer :=
  let n := b.bitsize
  match e.val with
  | .vbv64 _ _ => .error (raise_exception s e .TSTACK_INCOMPATIBLE_BVSIZES)
  | .vbv w v =>
    if w ≠ n then .error (raise_exception s e .TSTACK_INCOMPATIBLE_BVSIZES)
    else .ok (bvwsub_const b v)
  | .vterm t => do
    check_bv_term s e n
    .ok (bvwsub_term b t)
  | .vbvarith64 _ => .error (raise_exception s e .TSTACK_INCOMPATIBLE_BVSIZES)
  | .vbvarith eb =>
    if eb.bitsize ≠ n then .error (raise_exception s e .TSTACK_INCOMPATIBLE_BVSIZES)
    else .ok (bvwsub_buffer b eb)
  | .vbvlogic lb =>
    if lb.bits.length ≠ n then .error (raise_exception s e .TSTACK_INCOMPATIBLE_BVSIZES)
    else .ok (bvwsub_term b (bvlogic_buffer_get_term lb))
  | _ => .error (raise_exception s e .TSTACK_BVARITH_ERROR)

/-- `bva_mul_elem` (wide). -/
def bva_mul_elem (s : TStack) (b : BvArithBuffer) (e : StackElem) :
    Except ErrInfo BvArithBuffer :=
  let n := b.bitsize
  match e.val with
  | .vbv64 _ _ => .error (raise_exception s e .TSTACK_INCOMPATIBLE_BVSIZES)
  | .vbv w v =>
    if w ≠ n then .error (raise_exception s e .TSTACK_INCOMPATIBLE_BVSIZES)
    else .ok (bvwmul_const b v)
  | .vterm t => do
    check_bv_term s e n
    .ok (bvwmul_term b t)
  | .vbvarith64 _ => .error (raise_exception s e .TSTACK_INCOMPATIBLE_BVSIZES)
  | .vbvarith eb =>
    if eb.bitsize ≠ n then .error (raise_exception s e .TSTACK_INCOMPATIBLE_BVSIZES)
    else .ok (bvwmul_buffer b eb)
  | .vbvlogic lb =>
    if lb.bits.length ≠ n then .error (raise_exception s e .TSTACK_INCOMPATIBLE_BVSIZES)
    else .ok (bvwmul_term b (bvlogic_buffer_get_term lb))
  | _ => .error (raise_exception s e .TSTACK_BVARITH_ERROR)

end TermStack2

namespace TermStack2

/-- `copy_bvneg_term`: compute the payload holding the opposite of term
`t` (constants stay constants; otherwise a polynomial buffer is drawn
from the pool and the slot cleared).  Returns the new state and payload.
The 64-bit constant case negates on 64 bits (`- value` on `uint64_t`);
the wide case negates modulo `2 ^ (32k)` where `k` is the word count. -/
def copy_bvneg_term (s : TStack) (t : YTerm) :
    Except ErrInfo (TStack × StackVal) :=
  match t.bvsize? with
  | none => .error (report_yices_error s)
  | some n =>
    match t with
    | .bvconst64 _ v =>
      .ok (s, .vbv64 n ((2 ^ 64 - v % 2 ^ 64) % 2 ^ 64))
    | .bvconstW _ v =>
      let k := (n + 31) / 32
      .ok (s, .vbv n ((2 ^ (32 * k) - v % 2 ^ (32 * k)) % 2 ^ (32 * k)))
    | _ =>
      if n ≤ 64 then
        let (s1, b64) := tstack_get_bva64buffer s n
        let b64 := bv64sub_term b64 t
        .ok ({ s1 with bva64 := none }, .vbvarith64 b64)
      else
        let (s1, b) := tstack_get_bvabuffer s n
        let b := bvwsub_term b t
        .ok ({ s1 with bva := none }, .vbvarith b)

/-- `bvneg_elem`: negate the element at index `fIdx` in place.  The
`TAG_BV64` case stores the raw 64-bit two's-complement negation (no
re-normalization to the element's bitsize). -/
def bvneg_elem (s : TStack) (fIdx : Nat) : Except ErrInfo TStack :=
  let e := elemAt s fIdx
  let store := fun (s' : TStack) (v : StackVal) =>
    { s' with elems := s'.elems.set fIdx { e with val := v } }
  match e.val with
  | .vbv64 w v => .ok (store s (.vbv64 w ((2 ^ 64 - v % 2 ^ 64) % 2 ^ 64)))
  | .vbv w v =>
    let k := (w + 31) / 32
    .ok (store s (.vbv w ((2 ^ (32 * k) - v % 2 ^ (32 * k)) % 2 ^ (32 * k))))
  | .vterm t => do
    let (s1, v) ← copy_bvneg_term s t
    .ok (store s1 v)
  | .vbvarith64 b => .ok (store s (.vbvarith64 (bv64negate b)))
  | .vbvarith b => .ok (store s (.vbvarith (bvwnegate b)))
  | .vbvlogic b =>
    if !yices_check_bvlogic_buffer b then .error (report_yices_error s)
    else do
      let t := bvlogic_buffer_get_term b
      let s1 := recycle_bvlbuffer s b
      let (s2, v) ← copy_bvneg_term s1 t
      .ok (store s2 v)
  | _ => .error (raise_exception s e .TSTACK_BVARITH_ERROR)

/-- `bvl_set_elem`: copy element `e` into the logic buffer, raising
`TSTACK_BVLOGIC_ERROR` for non-bit-vector tags and a yices error for
non-bit-vector terms. -/
def bvl_set_elem (s : TStack) (b : BvLogicBuffer) (e : StackElem) :
    Except ErrInfo BvLogicBuffer :=
  match e.val with
  | .vbv64 w v => .ok (bvlSetConstant64 b w v)
  | .vbv w v => .ok (bvlSetConstant b w v)
  | .vterm t =>
    match t.bvsize? with
    | none => .error (report_yices_error s)
    | some w => .ok (bvlSetTerm b t w)
  | .vbvarith64 eb =>
    .ok (bvlSetTerm b (bvarith64_buffer_get_term eb) eb.bitsize)
  | .vbvarith eb =>
    .ok (bvlSetTerm b (bvarith_buffer_get_term eb) eb.bitsize)
  | .vbvlogic eb => .ok (bvlSetBuffer b eb)
  | _ => .error (raise_exception s e .TSTACK_BVLOGIC_ERROR)

/-- `bvl_set_slice_elem`: copy the segment `[i .. j]` of element `e`
into the logic buffer (callers guarantee `i ≤ j < bitsize`). -/
def bvl_set_slice_elem (s : TStack) (b : BvLogicBuffer) (i j : Nat) (e : StackElem) :
    Except ErrInfo BvLogicBuffer :=
  match e.val with
  | .vbv64 _ v => .ok (bvlSetSliceConstant64 b i j v)
  | .vbv _ v => .ok (bvlSetSliceConstant b i j v)
  | .vterm t =>
    match t.bvsize? with
    | none => .error (report_yices_error s)
    | some w => .ok (bvlSetSliceTerm b i j t w)
  | .vbvarith64 eb =>
    .ok (bvlSetSliceTerm b i j (bvarith64_buffer_get_term eb) eb.bitsize)
  | .vbvarith eb =>
    .ok (bvlSetSliceTerm b i j (bvarith_buffer_get_term eb) eb.bitsize)
  | .vbvlogic eb => .ok (bvlSetSliceBuffer b i j eb)
  | _ => .error (raise_exception s e .TSTACK_BVLOGIC_ERROR)

/-- `bvand_elem`: conjoin element `e` into the logic buffer (bitsize must
match the buffer's). -/
def bvand_elem (s : TStack) (b : BvLogicBuffer) (e : StackElem) :
    Except ErrInfo BvLogicBuffer :=
  let n := b.bits.length
  match e.val with
  | .vbv64 w v =>
    if w ≠ n then .error (raise_exception s e .TSTACK_INCOMPATIBLE_BVSIZES)
    else .ok (bvlAndBits b (constBits w v))
  | .vbv w v =>
    if w ≠ n then .error (raise_exception s e .TSTACK_INCOMPATIBLE_BVSIZES)
    else .ok (bvlAndBits b (constBits w v))
  | .vterm t => do
    check_bv_term s e n
    .ok (bvlAndBits b (termBits t n))
  | .vbvarith64 eb =>
    if eb.bitsize ≠ n then .error (raise_exception s e .TSTACK_INCOMPATIBLE_BVSIZES)
    else .ok (bvlAndBits b (termBits (bvarith64_buffer_get_term eb) n))
  | .vbvarith eb =>
    if eb.bitsize ≠ n then .error (raise_exception s e .TSTACK_INCOMPATIBLE_BVSIZES)
    else .ok (bvlAndBits b (termBits (bvarith_buffer_get_term eb) n))
  | .vbvlogic eb =>
    if eb.bits.length ≠ n then .error (raise_exception s e .TSTACK_INCOMPATIBLE_BVSIZES)
    else .ok (bvlAndBits b eb.bits)
  | _ => .error (raise_exception s e .TSTACK_BVLOGIC_ERROR)

/-- `bvor_elem`. -/
def bvor_elem (s : TStack) (b : BvLogicBuffer) (e : StackElem) :
    Except ErrInfo BvLogicBuffer :=
  let n := b.bits.length
  match e.val with
  | .vbv64 w v =>
    if w ≠ n then .error (raise_exception s e .TSTACK_INCOMPATIBLE_BVSIZES)
    else .ok (bvlOrBits b (constBits w v))
  | .vbv w v =>
    if w ≠ n then .error (raise_exception s e .TSTACK_INCOMPATIBLE_BVSIZES)
    else .ok (bvlOrBits b (constBits w v))
  | .vterm t => do
    check_bv_term s e n
    .ok (bvlOrBits b (termBits t n))
  | .vbvarith64 eb =>
    if eb.bitsize ≠ n then .error (raise_exception s e .TSTACK_INCOMPATIBLE_BVSIZES)
    else .ok (bvlOrBits b (termBits (bvarith64_buffer_get_term eb) n))
  | .vbvarith eb =>
    if eb.bitsize ≠ n then .error (raise_exception s e .TSTACK_INCOMPATIBLE_BVSIZES)
    else .ok (bvlOrBits b (termBits (bvarith_buffer_get_term eb) n))
  | .vbvlogic eb =>
    if eb.bits.length ≠ n then .error (raise_exception s e .TSTACK_INCOMPATIBLE_BVSIZES)
    else .ok (bvlOrBits b eb.bits)
  | _ => .error (raise_exception s e .TSTACK_BVLOGIC_ERROR)

/-- `bvxor_elem`. -/
def bvxor_elem (s : TStack) (b : BvLogicBuffer) (e : StackElem) :
    Except ErrInfo BvLogicBuffer :=
  let n := b.bits.length
  match e.val with
  | .vbv64 w v =>
    if w ≠ n then .error (raise_exception s e .TSTACK_INCOMPATIBLE_BVSIZES)
    else .ok (bvlXorBits b (constBits w v))
  | .vbv w v =>
    if w ≠ n then .error (raise_exception s e .TSTACK_INCOMPATIBLE_BVSIZES)
    else .ok (bvlXorBits b (constBits w v))
  | .vterm t => do
    check_bv_term s e n
    .ok (bvlXorBits b (termBits t n))
  | .vbvarith64 eb =>
    if eb.bitsize ≠ n then .error (raise_exception s e .TSTACK_INCOMPATIBLE_BVSIZES)
    else .ok (bvlXorBits b (termBits (bvarith64_buffer_get_term eb) n))
  | .vbvarith eb =>
    if eb.bitsize ≠ n then .error (raise_exception s e .TSTACK_INCOMPATIBLE_BVSIZES)
    else .ok (bvlXorBits b (termBits (bvarith_buffer_get_term eb) n))
  | .vbvlogic eb =>
    if eb.bits.length ≠ n then .error (raise_exception s e .TSTACK_INCOMPATIBLE_BVSIZES)
    else .ok (bvlXorBits b eb.bits)
  | _ => .error (raise_exception s e .TSTACK_BVLOGIC_ERROR)

/-- `bvconcat_elem`: append element `e` to the right of the buffer
(high-order bits from the buffer, low-order bits from `e`). -/
def bvconcat_elem (s : TStack) (b : BvLogicBuffer) (e : StackElem) :
    Except ErrInfo BvLogicBuffer :=
  match e.val with
  | .vbv64 w v => .ok (bvlConcatRight b (constBits w v))
  | .vbv w v => .ok (bvlConcatRight b (constBits w v))
  | .vterm t =>
    match t.bvsize? with
    | none => .error (report_yices_error s)
    | some w => .ok (bvlConcatRight b (termBits t w))
  | .vbvarith64 eb =>
    .ok (bvlConcatRight b (termBits (bvarith64_buffer_get_term eb) eb.bitsize))
  | .vbvarith eb =>
    .ok (bvlConcatRight b (termBits (bvarith_buffer_get_term eb) eb.bitsize))
  | .vbvlogic eb => .ok (bvlConcatRight b eb.bits)
  | _ => .error (raise_exception s e .TSTACK_BVLOGIC_ERROR)

end TermStack2

namespace TermStack2

/-- Modelled from the spec: `yices_check_bitshift` — a shift/rotate count
must lie in `[0, bitsize]` (equality permitted). -/
def yices_check_bitshift (b : BvLogicBuffer) (i : Int) : Bool :=
  0 ≤ i ∧ i ≤ (b.bits.length : Int)

/-- Modelled from the spec: `yices_check_bvextract n begin end` — an
extraction needs `0 ≤ begin ≤ end < n`. -/
def yices_check_bvextract (n : Nat) (a b : Int) : Bool :=
  0 ≤ a ∧ a ≤ b ∧ b < (n : Int)

/-- `check_define_type`: `[define-type <symbol> <type>]`.  Note the
`check_size (n == 2)`, which rejects the documented one-argument form
`[define-type <symbol>]` (the trailing `if (n == 2)` is vestigial). -/
def check_define_type (s : TStack) (f n : Nat) : Except ErrInfo Unit := do
  check_op s DEFINE_TYPE
  check_size s (n == 2)
  check_tag s (elemAt s f) .TAG_SYMBOL
  if n == 2 then check_tag s (elemAt s (f + 1)) .TAG_TYPE else .ok ()

/-- `eval_define_type`: bind the name to the given type, no result. -/
def eval_define_type (s : TStack) (f _n : Nat) : Except ErrInfo TStack :=
  let tau := match (elemAt s (f + 1)).val with
    | .vtype t => t
    | _ => 0
  let name := match (elemAt s f).val with
    | .vsymbol str => str
    | _ => ""
  .ok (no_result (tstack_pop_frame (yices_set_type_name s tau name)))

/-- `check_bind`: `[bind <symbol> <term>]`. -/
def check_bind (s : TStack) (f n : Nat) : Except ErrInfo Unit := do
  check_op s BIND
  check_size s (n == 2)
  check_tag s (elemAt s f) .TAG_SYMBOL

/-- `eval_bind`: register the name-to-term binding in the external
registry, pop the frame and leave a `TAG_BINDING` cell. -/
def eval_bind (s : TStack) (f _n : Nat) : Except ErrInfo TStack := do
  let name := match (elemAt s f).val with
    | .vsymbol str => str
    | _ => ""
  let t ← get_term s (elemAt s (f + 1))
  let s1 := yices_set_term_name s t name
  .ok (set_binding_result (tstack_pop_frame s1) t name)

/-- `check_let`: `[let <binding> ... <binding> <term>]`. -/
def check_let (s : TStack) (f n : Nat) : Except ErrInfo Unit := do
  check_op s LET
  check_size s (n ≥ 2)
  check_all_tags s f (f + (n - 1)) .TAG_BINDING

/-- `eval_let`: the result is the body; the binding cells above the
frame are freed (removing their name registrations). -/
def eval_let (s : TStack) (f n : Nat) : Except ErrInfo TStack :=
  .ok (copy_result_and_pop_frame s (f + (n - 1)))

/-- `check_mk_or`: `n ≥ 1`. -/
def check_mk_or (s : TStack) (_f n : Nat) : Except ErrInfo Unit := do
  check_op s MK_OR
  check_size s (n ≥ 1)

/-- `eval_mk_or`: collect the argument terms and build `yices_or`. -/
def eval_mk_or (s : TStack) (f n : Nat) : Except ErrInfo TStack := do
  let args ← (List.range n).mapM (fun i => get_term s (elemAt s (f + i)))
  .ok (set_term_result (tstack_pop_frame s) (yices_or args))

/-- `check_mk_and`: `n ≥ 1`. -/
def check_mk_and (s : TStack) (_f n : Nat) : Except ErrInfo Unit := do
  check_op s MK_AND
  check_size s (n ≥ 1)

/-- `eval_mk_and`. -/
def eval_mk_and (s : TStack) (f n : Nat) : Except ErrInfo TStack := do
  let args ← (List.range n).mapM (fun i => get_term s (elemAt s (f + i)))
  .ok (set_term_result (tstack_pop_frame s) (yices_and args))

/-- `check_mk_xor`: `n ≥ 1`. -/
def check_mk_xor (s : TStack) (_f n : Nat) : Except ErrInfo Unit := do
  check_op s MK_XOR
  check_size s (n ≥ 1)

/-- `eval_mk_xor`. -/
def eval_mk_xor (s : TStack) (f n : Nat) : Except ErrInfo TStack := do
  let args ← (List.range n).mapM (fun i => get_term s (elemAt s (f + i)))
  .ok (set_term_result (tstack_pop_frame s) (yices_xor args))

/-- `check_mk_bv_add`: `n ≥ 1`. -/
def check_mk_bv_add (s : TStack) (_f n : Nat) : Except ErrInfo Unit := do
  check_op s MK_BV_ADD
  check_size s (n ≥ 1)

/-- `eval_mk_bv_add`: accumulate all arguments into a polynomial buffer
of the first argument's bitsize, then store the buffer as the result. -/
def eval_mk_bv_add (s : TStack) (f n : Nat) : Except ErrInfo TStack := do
  let bitsize ← elem_bitsize s (elemAt s f)
  if bitsize ≤ 64 then do
    let (s1, b0) := tstack_get_bva64buffer s bitsize
    let b ← (List.range n).foldlM
      (fun b i => bva64_add_elem s1 b (elemAt s1 (f + i))) b0
    .ok (set_bvarith64_result (tstack_pop_frame s1) b)
  else do
    let (s1, b0) := tstack_get_bvabuffer s bitsize
    let b ← (List.range n).foldlM
      (fun b i => bva_add_elem s1 b (elemAt s1 (f + i))) b0
    .ok (set_bvarith_result (tstack_pop_frame s1) b)

/-- `check_mk_bv_sub`: `n ≥ 2` (one-argument frames are invalid). -/
def check_mk_bv_sub (s : TStack) (_f n : Nat) : Except ErrInfo Unit := do
  check_op s MK_BV_SUB
  check_size s (n ≥ 2)

/-- `eval_mk_bv_sub`: add the first argument, subtract the others
(left fold `(a - b) - c ...`). -/
def eval_mk_bv_sub (s : TStack) (f n : Nat) : Except ErrInfo TStack := do
  let bitsize ← elem_bitsize s (elemAt s f)
  if bitsize ≤ 64 then do
    let (s1, b0) := tstack_get_bva64buffer s bitsize
    let b ← bva64_add_elem s1 b0 (elemAt s1 f)
    let b ← (List.range (n - 1)).foldlM
      (fun b i => bva64_sub_elem s1 b (elemAt s1 (f + 1 + i))) b
    .ok (set_bvarith64_result (tstack_pop_frame s1) b)
  else do
    let (s1, b0) := tstack_get_bvabuffer s bitsize
    let b ← bva_add_elem s1 b0 (elemAt s1 f)
    let b ← (List.range (n - 1)).foldlM
      (fun b i => bva_sub_elem s1 b (elemAt s1 (f + 1 + i))) b
    .ok (set_bvarith_result (tstack_pop_frame s1) b)

/-- `check_mk_bv_mul`: `n ≥ 1`. -/
def check_mk_bv_mul (s : TStack) (_f n : Nat) : Except ErrInfo Unit := do
  check_op s MK_BV_MUL
  check_size s (n ≥ 1)

/-- `eval_mk_bv_mul`: add the first argument, multiply by the others. -/
def eval_mk_bv_mul (s : TStack) (f n : Nat) : Except ErrInfo TStack := do
  let bitsize ← elem_bitsize s (elemAt s f)
  if bitsize ≤ 64 then do
    let (s1, b0) := tstack_get_bva64buffer s bitsize
    let b ← bva64_add_elem s1 b0 (elemAt s1 f)
    let b ← (List.range (n - 1)).foldlM
      (fun b i => bva64_mul_elem s1 b (elemAt s1 (f + 1 + i))) b
    .ok (set_bvarith64_result (tstack_pop_frame s1) b)
  else do
    let (s1, b0) := tstack_get_bvabuffer s bitsize
    let b ← bva_add_elem s1 b0 (elemAt s1 f)
    let b ← (List.range (n - 1)).foldlM
      (fun b i => bva_mul_elem s1 b (elemAt s1 (f + 1 + i))) b
    .ok (set_bvarith_result (tstack_pop_frame s1) b)

/-- `check_mk_bv_neg`: `n = 1`. -/
def check_mk_bv_neg (s : TStack) (_f n : Nat) : Except ErrInfo Unit := do
  check_op s MK_BV_NEG
  check_size s (n == 1)

/-- `eval_mk_bv_neg`: negate the argument in place and copy it down as
the result. -/
def eval_mk_bv_neg (s : TStack) (f _n : Nat) : Except ErrInfo TStack := do
  let s1 ← bvneg_elem s f
  .ok (copy_result_and_pop_frame s1 f)

end TermStack2

namespace TermStack2

/-- `check_mk_bv_and`: `n ≥ 1`. -/
def check_mk_bv_and (s : TStack) (_f n : Nat) : Except ErrInfo Unit := do
  check_op s MK_BV_AND
  check_size s (n ≥ 1)

/-- `eval_mk_bv_and`: set the logic buffer from the first argument, then
conjoin the remaining arguments. -/
def eval_mk_bv_and (s : TStack) (f n : Nat) : Except ErrInfo TStack := do
  let (s1, b0) := tstack_get_bvlbuffer s
  let b ← bvl_set_elem s1 b0 (elemAt s1 f)
  let b ← (List.range (n - 1)).foldlM
    (fun b i => bvand_elem s1 b (elemAt s1 (f + 1 + i))) b
  .ok (set_bvlogic_result (tstack_pop_frame s1) b)

/-- `check_mk_bv_or`: `n ≥ 1`. -/
def check_mk_bv_or (s : TStack) (_f n : Nat) : Except ErrInfo Unit := do
  check_op s MK_BV_OR
  check_size s (n ≥ 1)

/-- `eval_mk_bv_or`. -/
def eval_mk_bv_or (s : TStack) (f n : Nat) : Except ErrInfo TStack := do
  let (s1, b0) := tstack_get_bvlbuffer s
  let b ← bvl_set_elem s1 b0 (elemAt s1 f)
  let b ← (List.range (n - 1)).foldlM
    (fun b i => bvor_elem s1 b (elemAt s1 (f + 1 + i))) b
  .ok (set_bvlogic_result (tstack_pop_frame s1) b)

/-- `check_mk_bv_xor`: `n ≥ 1`. -/
def check_mk_bv_xor (s : TStack) (_f n : Nat) : Except ErrInfo Unit := do
  check_op s MK_BV_XOR
  check_size s (n ≥ 1)

/-- `eval_mk_bv_xor`. -/
def eval_mk_bv_xor (s : TStack) (f n : Nat) : Except ErrInfo TStack := do
  let (s1, b0) := tstack_get_bvlbuffer s
  let b ← bvl_set_elem s1 b0 (elemAt s1 f)
  let b ← (List.range (n - 1)).foldlM
    (fun b i => bvxor_elem s1 b (elemAt s1 (f + 1 + i))) b
  .ok (set_bvlogic_result (tstack_pop_frame s1) b)

/-- `check_mk_bv_nand`: `n ≥ 1`. -/
def check_mk_bv_nand (s : TStack) (_f n : Nat) : Except ErrInfo Unit := do
  check_op s MK_BV_NAND
  check_size s (n ≥ 1)

/-- `eval_mk_bv_nand`: conjoin all arguments, then complement the buffer
(so a one-argument frame evaluates to the complement of its argument). -/
def eval_mk_bv_nand (s : TStack) (f n : Nat) : Except ErrInfo TStack := do
  let (s1, b0) := tstack_get_bvlbuffer s
  let b ← bvl_set_elem s1 b0 (elemAt s1 f)
  let b ← (List.range (n - 1)).foldlM
    (fun b i => bvand_elem s1 b (elemAt s1 (f + 1 + i))) b
  .ok (set_bvlogic_result (tstack_pop_frame s1) (bvlNot b))

/-- `check_mk_bv_nor`: `n ≥ 1`. -/
def check_mk_bv_nor (s : TStack) (_f n : Nat) : Except ErrInfo Unit := do
  check_op s MK_BV_NOR
  check_size s (n ≥ 1)

/-- `eval_mk_bv_nor`. -/
def eval_mk_bv_nor (s : TStack) (f n : Nat) : Except ErrInfo TStack := do
  let (s1, b0) := tstack_get_bvlbuffer s
  let b ← bvl_set_elem s1 b0 (elemAt s1 f)
  let b ← (List.range (n - 1)).foldlM
    (fun b i => bvor_elem s1 b (elemAt s1 (f + 1 + i))) b
  .ok (set_bvlogic_result (tstack_pop_frame s1) (bvlNot b))

/-- `check_mk_bv_xnor`: `n ≥ 1`. -/
def check_mk_bv_xnor (s : TStack) (_f n : Nat) : Except ErrInfo Unit := do
  check_op s MK_BV_XNOR
  check_size s (n ≥ 1)

/-- `eval_mk_bv_xnor`. -/
def eval_mk_bv_xnor (s : TStack) (f n : Nat) : Except ErrInfo TStack := do
  let (s1, b0) := tstack_get_bvlbuffer s
  let b ← bvl_set_elem s1 b0 (elemAt s1 f)
  let b ← (List.range (n - 1)).foldlM
    (fun b i => bvxor_elem s1 b (elemAt s1 (f + 1 + i))) b
  .ok (set_bvlogic_result (tstack_pop_frame s1) (bvlNot b))

/-- `check_mk_bv_concat`: `n ≥ 1`. -/
def check_mk_bv_concat (s : TStack) (_f n : Nat) : Except ErrInfo Unit := do
  check_op s MK_BV_CONCAT
  check_size s (n ≥ 1)

/-- `eval_mk_bv_concat`: concatenate the arguments left to right into an
initially empty logic buffer. -/
def eval_mk_bv_concat (s : TStack) (f n : Nat) : Except ErrInfo TStack := do
  let (s1, b0) := tstack_get_bvlbuffer s
  let b ← (List.range n).foldlM
    (fun b i => bvconcat_elem s1 b (elemAt s1 (f + i))) b0
  .ok (set_bvlogic_result (tstack_pop_frame s1) b)

/-- `check_mk_bv_rotate_left`: `[mk-bv-rotate-left <bv> <rational>]`. -/
def check_mk_bv_rotate_left (s : TStack) (f n : Nat) : Except ErrInfo Unit := do
  check_op s MK_BV_ROTATE_LEFT
  check_size s (n == 2)
  check_tag s (elemAt s (f + 1)) .TAG_RATIONAL

/-- `eval_mk_bv_rotate_left`: check that the count is in `[0, bitsize]`
and rotate, except that rotation by exactly the bitsize is skipped
(identity). -/
def eval_mk_bv_rotate_left (s : TStack) (f _n : Nat) : Except ErrInfo TStack := do
  let index ← get_integer s (elemAt s (f + 1))
  let (s1, b0) := tstack_get_bvlbuffer s
  let b ← bvl_set_elem s1 b0 (elemAt s1 f)
  if !yices_check_bitshift b index then .error (report_yices_error s1)
  else
    let b := if index < (b.bits.length : Int) then bvlRotateLeft b index.toNat else b
    .ok (set_bvlogic_result (tstack_pop_frame s1) b)

/-- `check_mk_bv_rotate_right`. -/
def check_mk_bv_rotate_right (s : TStack) (f n : Nat) : Except ErrInfo Unit := do
  check_op s MK_BV_ROTATE_RIGHT
  check_size s (n == 2)
  check_tag s (elemAt s (f + 1)) .TAG_RATIONAL

/-- `eval_mk_bv_rotate_right`. -/
def eval_mk_bv_rotate_right (s : TStack) (f _n : Nat) : Except ErrInfo TStack := do
  let index ← get_integer s (elemAt s (f + 1))
  let (s1, b0) := tstack_get_bvlbuffer s
  let b ← bvl_set_elem s1 b0 (elemAt s1 f)
  if !yices_check_bitshift b index then .error (report_yices_error s1)
  else
    let b := if index < (b.bits.length : Int) then bvlRotateRight b index.toNat else b
    .ok (set_bvlogic_result (tstack_pop_frame s1) b)

/-- `check_mk_bv_extract`: `[mk-bv-extract <rational> <rational> <bv>]`. -/
def check_mk_bv_extract (s : TStack) (f n : Nat) : Except ErrInfo Unit := do
  check_op s MK_BV_EXTRACT
  check_size s (n == 3)
  check_tag s (elemAt s f) .TAG_RATIONAL
  check_tag s (elemAt s (f + 1)) .TAG_RATIONAL

/-- `eval_mk_bv_extract`: `i` is the end (high) index, `j` the start
(low) index.  After the bound check, the identity branch fires when
`i == 0 && j == size - 1`; otherwise the slice `[j .. i]` is copied into
a logic buffer. -/
def eval_mk_bv_extract (s : TStack) (f _n : Nat) : Except ErrInfo TStack := do
  let i ← get_integer s (elemAt s f)
  let j ← get_integer s (elemAt s (f + 1))
  let size ← elem_bitsize s (elemAt s (f + 2))
  if !yices_check_bvextract size j i then .error (report_yices_error s)
  else if i = 0 ∧ j = (size : Int) - 1 then
    .ok (copy_result_and_pop_frame s (f + 2))
  else do
    let (s1, b0) := tstack_get_bvlbuffer s
    let b ← bvl_set_slice_elem s1 b0 j.toNat i.toNat (elemAt s1 (f + 2))
    .ok (set_bvlogic_result (tstack_pop_frame s1) b)

/-- `check_build_term`: `[build-term <term>]`. -/
def check_build_term (s : TStack) (_f n : Nat) : Except ErrInfo Unit := do
  check_op s BUILD_TERM
  check_size s (n == 1)

/-- `eval_build_term`: store the term in the result slot, no result cell. -/
def eval_build_term (s : TStack) (f _n : Nat) : Except ErrInfo TStack := do
  let t ← get_term s (elemAt s f)
  .ok (no_result (tstack_pop_frame { s with resultTerm := some t }))

/-- `eval_error`: check entry of `NO_OP` (and of unregistered opcodes in
the scenarios below): raise `TSTACK_INVALID_OP`. -/
def eval_error (s : TStack) (f _n : Nat) : Except ErrInfo TStack :=
  .error (raise_exception s (elemAt s f) .TSTACK_INVALID_OP)

/-- The check entry corresponding to `eval_error`. -/
def check_error (s : TStack) (f _n : Nat) : Except ErrInfo Unit :=
  .error (raise_exception s (elemAt s f) .TSTACK_INVALID_OP)

end TermStack2

namespace TermStack2

/-- The associativity column of the predefined operator table (the
`assoc[NUM_BASE_OPCODES]` array): true exactly for LET, MK_OR, MK_AND,
MK_XOR, MK_BV_ADD, MK_BV_MUL, the six bitwise connectives and
MK_BV_CONCAT. -/
def base_assoc (op : Int) : Bool :=
  op = LET ∨ op = MK_OR ∨ op = MK_AND ∨ op = MK_XOR ∨
  op = MK_BV_ADD ∨ op = MK_BV_MUL ∨
  op = MK_BV_AND ∨ op = MK_BV_OR ∨ op = MK_BV_XOR ∨
  op = MK_BV_NAND ∨ op = MK_BV_NOR ∨ op = MK_BV_XNOR ∨
  op = MK_BV_CONCAT

/-- The dispatch table restricted to the operators embedded in this
development (the columns `check[]` / `eval[]` of the predefined table for
those opcodes).  Opcodes outside the embedded subset get the
`TSTACK_INVALID_OP` entries; no theorem below dispatches them. -/
def baseTable : OpTable := fun op =>
  { assoc := base_assoc op
    check :=
      if op = DEFINE_TYPE then check_define_type
      else if op = BIND then check_bind
      else if op = LET then check_let
      else if op = MK_OR then check_mk_or
      else if op = MK_AND then check_mk_and
      else if op = MK_XOR then check_mk_xor
      else if op = MK_BV_ADD then check_mk_bv_add
      else if op = MK_BV_SUB then check_mk_bv_sub
      else if op = MK_BV_MUL then check_mk_bv_mul
      else if op = MK_BV_NEG then check_mk_bv_neg
      else if op = MK_BV_AND then check_mk_bv_and
      else if op = MK_BV_OR then check_mk_bv_or
      else if op = MK_BV_XOR then check_mk_bv_xor
      else if op = MK_BV_NAND then check_mk_bv_nand
      else if op = MK_BV_NOR then check_mk_bv_nor
      else if op = MK_BV_XNOR then check_mk_bv_xnor
      else if op = MK_BV_CONCAT then check_mk_bv_concat
      else if op = MK_BV_ROTATE_LEFT then check_mk_bv_rotate_left
      else if op = MK_BV_ROTATE_RIGHT then check_mk_bv_rotate_right
      else if op = MK_BV_EXTRACT then check_mk_bv_extract
      else if op = BUILD_TERM then check_build_term
      else check_error
    evalOp :=
      if op = DEFINE_TYPE then eval_define_type
      else if op = BIND then eval_bind
      else if op = LET then eval_let
      else if op = MK_OR then eval_mk_or
      else if op = MK_AND then eval_mk_and
      else if op = MK_XOR then eval_mk_xor
      else if op = MK_BV_ADD then eval_mk_bv_add
      else if op = MK_BV_SUB then eval_mk_bv_sub
      else if op = MK_BV_MUL then eval_mk_bv_mul
      else if op = MK_BV_NEG then eval_mk_bv_neg
      else if op = MK_BV_AND then eval_mk_bv_and
      else if op = MK_BV_OR then eval_mk_bv_or
      else if op = MK_BV_XOR then eval_mk_bv_xor
      else if op = MK_BV_NAND then eval_mk_bv_nand
      else if op = MK_BV_NOR then eval_mk_bv_nor
      else if op = MK_BV_XNOR then eval_mk_bv_xnor
      else if op = MK_BV_CONCAT then eval_mk_bv_concat
      else if op = MK_BV_ROTATE_LEFT then eval_mk_bv_rotate_left
      else if op = MK_BV_ROTATE_RIGHT then eval_mk_bv_rotate_right
      else if op = MK_BV_EXTRACT then eval_mk_bv_extract
      else if op = BUILD_TERM then eval_build_term
      else eval_error }

end TermStack2

namespace TermStack2

/-- The content of one malloc-allocated operator-table slot: never
written (`uninit`), explicitly NULL, or a function pointer (opaque tag).
`alloc_op_table` malloc's the three arrays without initializing them. -/
inductive SlotVal (α : Type) where
  | uninit
  | nullPtr
  | defined (v : α)
  deriving DecidableEq, Repr

/-- The operator table at the data level (`op_table_t`): the three
column arrays as total maps from indices, the count `num_ops` of
registered operators, and the allocated `size`. -/
structure OpTableData where
  size : Nat
  num_ops : Nat
  assocA : Nat → SlotVal Bool
  checkA : Nat → SlotVal Nat
  evalA : Nat → SlotVal Nat

/-- `alloc_op_table`: all slots uninitialized, `num_ops = 0`. -/
def alloc_op_table (n : Nat) : OpTableData :=
  { size := n
    num_ops := 0
    assocA := fun _ => .uninit
    checkA := fun _ => .uninit
    evalA := fun _ => .uninit }

/-- The initialization loop of `init_tstack`: write the predefined
`assoc` / `check` / `eval` entries for opcodes `0 .. NUM_BASE_OPCODES-1`
(the function pointers are modelled by their index as an opaque tag;
`eval[NO_OP]` is the one explicitly NULL entry of the source arrays) and
set `num_ops = NUM_BASE_OPCODES`. -/
def init_op_table_data (n : Nat) : OpTableData :=
  let t := alloc_op_table n
  { t with
    num_ops := NUM_BASE_OPCODES
    assocA := fun i =>
      if i < NUM_BASE_OPCODES then .defined (base_assoc (i : Int)) else .uninit
    checkA := fun i =>
      if i < NUM_BASE_OPCODES then .defined i else .uninit
    evalA := fun i =>
      if i < NUM_BASE_OPCODES then (if i = 0 then .nullPtr else .defined i)
      else .uninit }

/-- `tstack_add_op` at the data level: overwrite the three slots at
index `op` and, when `op ≥ num_ops`, jump `num_ops` to `op + 1`
(callers must keep `op < size`, per the assert). -/
def tstack_add_op (t : OpTableData) (op : Nat) (assoc : Bool)
    (evalTag checkTag : Nat) : OpTableData :=
  { t with
    assocA := fun i => if i = op then .defined assoc else t.assocA i
    evalA := fun i => if i = op then .defined evalTag else t.evalA i
    checkA := fun i => if i = op then .defined checkTag else t.checkA i
    num_ops := if op ≥ t.num_ops then op + 1 else t.num_ops }

/-- What `tstack_eval`'s dispatch does at the data level: calling through
a function-pointer slot is well-defined only when the slot holds a
written pointer value. -/
inductive DispatchOutcome where
  | undefinedBehavior
  | callFn (tag : Nat)
  deriving DecidableEq, Repr

/-- Dispatch through the `eval` column. -/
def op_table_dispatch_eval (t : OpTableData) (op : Nat) : DispatchOutcome :=
  match t.evalA op with
  | .defined tag => .callFn tag
  | _ => .undefinedBehavior

end TermStack2

namespace TermStack2

theorem constBits_length (n v : Nat) : (constBits n v).length = n := by
  induction n generalizing v with
  | zero => rfl
  | succ n ih => simp [constBits, ih]

theorem bitsConstant_constBits (n v : Nat) : bitsConstant (constBits n v) = true := by
  induction n generalizing v with
  | zero => rfl
  | succ n ih => simp [constBits, bitsConstant, ih]

theorem bitsValue_constBits (n v : Nat) : bitsValue (constBits n v) = v % 2 ^ n := by
  induction n generalizing v with
  | zero => simp [constBits, bitsValue, Nat.mod_one]
  | succ n ih =>
    rw [pow_succ', Nat.mod_mul]
    simp only [constBits, bitsValue, ih]
    rcases Nat.mod_two_eq_zero_or_one v with h | h <;> simp [h]

theorem constBits_map_bitNot (n v : Nat) :
    (constBits n v).map bitNot = constBits n (2 ^ n - 1 - v % 2 ^ n) := by
  induction n generalizing v with
  | zero => rfl
  | succ n ih =>
    have hv : v % 2 ^ (n + 1) < 2 ^ (n + 1) := Nat.mod_lt _ (by positivity)
    have h2 : v % 2 ^ (n + 1) = v % 2 + 2 * (v / 2 % 2 ^ n) := by
      rw [pow_succ', Nat.mod_mul]
    have hlt : v / 2 % 2 ^ n < 2 ^ n := Nat.mod_lt _ (by positivity)
    simp only [constBits, List.map_cons, ih, List.cons.injEq]
    refine ⟨?_, ?_⟩
    · simp only [bitNot]
      rcases Nat.mod_two_eq_zero_or_one v with h | h
      · have : (2 ^ (n + 1) - 1 - v % 2 ^ (n + 1)) % 2 = 1 := by
          rw [h2, h]; rw [pow_succ']; omega
        simp [h, this]
      · have : (2 ^ (n + 1) - 1 - v % 2 ^ (n + 1)) % 2 = 0 := by
          rw [h2, h]; rw [pow_succ']; omega
        simp [h, this]
    · have : (2 ^ (n + 1) - 1 - v % 2 ^ (n + 1)) / 2 = 2 ^ n - 1 - v / 2 % 2 ^ n := by
        rw [h2]; rw [pow_succ']
        rcases Nat.mod_two_eq_zero_or_one v with h | h <;> omega
      rw [this]

end TermStack2

namespace TermStack2

/-- The stack obtained by pushing `DEFINE_TYPE` and a single symbol
argument (the documented one-argument form `[define-type <symbol>]`). -/
def c2OneArgState : TStack :=
  tstack_push_symbol (tstack_push_op baseTable freshTStack DEFINE_TYPE ⟨1, 1⟩) "T" ⟨1, 2⟩

/-- C2: the DEFINE_TYPE operation is documented (term_stack2.h) to accept
either one argument or two, with the one-argument form binding the name
to a fresh type and not raising INVALID_FRAME.  The code's
`check_define_type` instead demands exactly two arguments
(`check_size(stack, n == 2)`, with a vestigial `if (n == 2)` betraying
the intended `n == 1 || n == 2`), so evaluating the one-argument frame
raises `TSTACK_INVALID_FRAME`. -/
theorem c2_define_type_one_arg_invalid_frame :
    tstack_eval baseTable c2OneArgState =
      .error ⟨.TSTACK_INVALID_FRAME, ⟨1, 1⟩, DEFINE_TYPE, none⟩ := by
  rfl

end TermStack2

namespace TermStack2

/-- The stack holding the frame
`[MK_BV_EXTRACT, rational 3, rational 0, bv64 0b1010 (4 bits)]`:
the identity extraction `(bv-extract 3 0 bv)` on a 4-bit constant. -/
def c1ExtractState : TStack :=
  tstack_push_bv64
    (tstack_push_int32
      (tstack_push_int32
        (tstack_push_op baseTable freshTStack MK_BV_EXTRACT ⟨1, 1⟩) 3 ⟨1, 2⟩)
      0 ⟨1, 3⟩)
    4 10 ⟨1, 4⟩

/-- The state the code produces: a fresh stack whose result cell is a
logic-buffer slice of the input's four bits (not the input cell). -/
def c1ExtractResult : TStack :=
  { freshTStack with
    elems := [sentinelElem,
      ⟨.vbvlogic ⟨0, [.bconst false, .bconst true, .bconst false, .bconst true]⟩,
        ⟨1, 1⟩⟩]
    nextBufId := 1 }

/-- C1: MK_BV_EXTRACT with high = size-1, low = 0 is supposed to return
the input cell unchanged (identity extraction), per the spec, the test
scenario S3 and the code's own comment `(bv-extract 0 size-1 bv) = bv`.
The identity branch of `eval_mk_bv_extract` instead tests
`i == 0 && j == size-1` with `i` the high index and `j` the low index —
the swapped condition — which is unreachable for `size ≥ 2` because the
preceding bound check requires `j ≤ i`.  On the 4-bit input the code
builds a fresh logic-buffer slice: the result cell has tag
`TAG_BVLOGIC_BUFFER` and is not structurally equal to the `BV64` input
(it only denotes the same constant). -/
theorem c1_bv_extract_identity_not_taken :
    tstack_eval baseTable c1ExtractState = .ok c1ExtractResult ∧
    ((elemAt c1ExtractResult 1).val).tag = .TAG_BVLOGIC_BUFFER ∧
    (elemAt c1ExtractResult 1).val ≠ .vbv64 4 10 ∧
    get_term c1ExtractResult (elemAt c1ExtractResult 1) = .ok (.bvconst64 4 10) := by
  refine ⟨by rfl, by rfl, by decide, by rfl⟩

end TermStack2

namespace TermStack2

/-- The stack holding the frame `[MK_BV_NEG, bv64 1 (4 bits)]`. -/
def c8NegState : TStack :=
  tstack_push_bv64 (tstack_push_op baseTable freshTStack MK_BV_NEG ⟨1, 1⟩) 4 1 ⟨1, 2⟩

/-- The state after evaluating that frame: the result cell stores the
raw 64-bit negation `2^64 - 1`, not the 4-bit normalized value 15. -/
def c8NegResult : TStack :=
  { freshTStack with
    elems := [sentinelElem, ⟨.vbv64 4 18446744073709551615, ⟨1, 2⟩⟩] }

/-- C8 counterexample: the claim says every reachable `TAG_BV64` cell —
in particular the result cell of MK_BV_NEG on a small constant — has its
64-bit value normalized to its bitsize (bits above `bitsize` all zero).
`bvneg_elem` however stores `- value` on 64 bits without re-normalizing:
negating the 4-bit constant 1 leaves the value `2^64 - 1`, whose bits
4..63 are set (`norm64` of it is 15, not `2^64 - 1`). -/
theorem c8_bvneg_unnormalized_counterexample :
    tstack_eval baseTable c8NegState = .ok c8NegResult ∧
    (elemAt c8NegResult 1).val = .vbv64 4 18446744073709551615 ∧
    norm64 18446744073709551615 4 = 15 ∧
    (18446744073709551615 : Nat) ≠ norm64 18446744073709551615 4 := by
  exact ⟨by rfl, by rfl, by rfl, by decide⟩

/-- The stack holding the single-argument frame `[MK_BV_NAND, bv64 0b01 (2 bits)]`. -/
def c9NandState : TStack :=
  tstack_push_bv64 (tstack_push_op baseTable freshTStack MK_BV_NAND ⟨1, 1⟩) 2 1 ⟨1, 2⟩

/-- The state after evaluating that frame: the complement `0b10`. -/
def c9NandResult : TStack :=
  { freshTStack with
    elems := [sentinelElem,
      ⟨.vbvlogic ⟨0, [.bconst false, .bconst true]⟩, ⟨1, 1⟩⟩]
    nextBufId := 1 }

/-- C9 counterexample: the claim says every associative operator —
including the bitwise connectives, hence MK_BV_NAND — evaluates a
single-argument frame to that argument (identity).  `eval_mk_bv_nand`
complements the buffer after the (empty) fold, so the one-argument frame
`[MK_BV_NAND, 0b01]` evaluates to a cell denoting `0b10`, not `0b01`:
the check accepts n = 1 but the result is the complement, not the
argument. -/
theorem c9_nand_single_arg_counterexample :
    tstack_eval baseTable c9NandState = .ok c9NandResult ∧
    get_term c9NandResult (elemAt c9NandResult 1) = .ok (.bvconst64 2 2) ∧
    get_term c9NandState (elemAt c9NandState 2) = .ok (.bvconst64 2 1) ∧
    (YTerm.bvconst64 2 2) ≠ (YTerm.bvconst64 2 1) := by
  exact ⟨by rfl, by rfl, by rfl, by decide⟩

/-- A push/eval run with two sibling arithmetic frames under an open
MK_BV_CONCAT frame: `(concat (bv-add 3 1) (bv-sub 3 1) ...` with the
concat frame still open at the end. -/
def c6Run : Except ErrInfo TStack := do
  let s := tstack_push_op baseTable freshTStack MK_BV_CONCAT ⟨1, 1⟩
  let s := tstack_push_op baseTable s MK_BV_ADD ⟨1, 2⟩
  let s := tstack_push_bv64 s 4 3 ⟨1, 3⟩
  let s := tstack_push_bv64 s 4 1 ⟨1, 4⟩
  let s ← tstack_eval baseTable s
  let s := tstack_push_op baseTable s MK_BV_SUB ⟨1, 5⟩
  let s := tstack_push_bv64 s 4 3 ⟨1, 6⟩
  let s := tstack_push_bv64 s 4 1 ⟨1, 7⟩
  tstack_eval baseTable s

/-- The state `c6Run` reaches: two distinct bvarith64 buffers (ids 0 and
1) live in two stack cells at once, with the pool slot empty. -/
def c6TwoBuffersState : TStack :=
  { freshTStack with
    elems := [sentinelElem,
      ⟨.vop MK_BV_CONCAT 0 0, ⟨1, 1⟩⟩,
      ⟨.vbvarith64 ⟨0, 4, 4, []⟩, ⟨1, 2⟩⟩,
      ⟨.vbvarith64 ⟨1, 4, 2, []⟩, ⟨1, 5⟩⟩]
    frame := 1
    top_op := MK_BV_CONCAT
    arenaDepth := 1
    nextBufId := 2 }

/-- Number of stack cells holding a bvarith64 buffer. -/
def countBva64Cells (s : TStack) : Nat :=
  (s.elems.filter (fun e => e.val.tag = .TAG_BVARITH64_BUFFER)).length

/-- Cardinality of (pool slot occupied) + (cells holding a bvarith64
buffer): the quantity the buffer-exclusivity claim bounds by one. -/
def bva64Instances (s : TStack) : Nat :=
  countBva64Cells s + (if s.bva64.isSome then 1 else 0)

/-- C6 counterexample: the claim bounds, for each buffer kind, the
number of instances across the pool slot and the stack cells by one at
any point outside an in-flight evaluator.  Evaluating two sibling
frames (`MK_BV_ADD` then `MK_BV_SUB`, under an open `MK_BV_CONCAT`
frame) leaves two bvarith64-buffer cells on the stack simultaneously:
the first result cell holds buffer 0 while the pool slot is empty, so
the second evaluation allocates buffer 1, and both cells are live
between operations — the cardinality is 2. -/
theorem c6_two_buffer_cells_counterexample :
    c6Run = .ok c6TwoBuffersState ∧ bva64Instances c6TwoBuffersState = 2 := by
  exact ⟨by rfl, by rfl⟩

end TermStack2

namespace TermStack2

/-- C10: registering an opcode `op` strictly greater than the current
`num_ops` in the freshly initialized table makes `num_ops` jump to
`op + 1`.  Every opcode `j` with `num_ops ≤ j < op` thereby becomes
in-bounds while its `assoc`, `check` and `eval` slots keep their
malloc'd, never-written contents (uninitialized, not NULL).  The
opcode-validity check of `tstack_push_op` sits under `#ifndef NDEBUG`,
so the release-build push (the `tstack_push_op` model) accepts such an
opcode — the pushed frame's `top_op` is `j` — and the evaluation
dispatch through the `eval` column of the table hits an uninitialized
function pointer (undefined behavior). -/
theorem c10_add_op_gap_uninitialized_dispatch
    (n op : Nat) (assoc : Bool) (evTag ckTag : Nat)
    (hgt : NUM_BASE_OPCODES < op) :
    (tstack_add_op (init_op_table_data n) op assoc evTag ckTag).num_ops = op + 1 ∧
    (∀ j, NUM_BASE_OPCODES ≤ j → j < op →
      j < (tstack_add_op (init_op_table_data n) op assoc evTag ckTag).num_ops ∧
      (tstack_add_op (init_op_table_data n) op assoc evTag ckTag).assocA j = .uninit ∧
      (tstack_add_op (init_op_table_data n) op assoc evTag ckTag).checkA j = .uninit ∧
      (tstack_add_op (init_op_table_data n) op assoc evTag ckTag).evalA j = .uninit ∧
      (tstack_add_op (init_op_table_data n) op assoc evTag ckTag).checkA j ≠ .nullPtr ∧
      op_table_dispatch_eval (tstack_add_op (init_op_table_data n) op assoc evTag ckTag) j =
        .undefinedBehavior ∧
      (∀ (tbl : OpTable) (s : TStack) (loc : Loc),
        (tstack_push_op tbl s (j : Int) loc).top_op = (j : Int))) := by
  have hnum : (init_op_table_data n).num_ops = NUM_BASE_OPCODES := rfl
  constructor
  · simp only [tstack_add_op, hnum]
    have : op ≥ NUM_BASE_OPCODES := Nat.le_of_lt hgt
    simp [this]
  · intro j hj1 hj2
    have hne : j ≠ op := Nat.ne_of_lt hj2
    have hnm : ¬ j < NUM_BASE_OPCODES := Nat.not_lt.mpr hj1
    refine ⟨?_, ?_, ?_, ?_, ?_, ?_, ?_⟩
    · simp only [tstack_add_op, hnum]
      have : op ≥ NUM_BASE_OPCODES := Nat.le_of_lt hgt
      simp [this]
      omega
    · simp [tstack_add_op, init_op_table_data, alloc_op_table, hne, hnm]
    · simp [tstack_add_op, init_op_table_data, alloc_op_table, hne, hnm]
    · simp [tstack_add_op, init_op_table_data, alloc_op_table, hne, hnm]
    · simp [tstack_add_op, init_op_table_data, alloc_op_table, hne, hnm]
    · simp [op_table_dispatch_eval, tstack_add_op, init_op_table_data,
        alloc_op_table, hne, hnm]
    · intro tbl s loc
      unfold tstack_push_op
      split
      · next h => simp [h.2]
      · split <;> rfl

end TermStack2

namespace TermStack2

/-- Witness for C10 at a concrete input: register opcode 70 in a table of
size 100; `num_ops` jumps to 71, the gap opcode 65 is in-bounds yet
uninitialized, its dispatch is undefined, and the release push accepts it. -/
theorem c10_add_op_gap_uninitialized_dispatch_witness :
    (tstack_add_op (init_op_table_data 100) 70 false 7 8).num_ops = 70 + 1 ∧
    (tstack_add_op (init_op_table_data 100) 70 false 7 8).checkA 65 = .uninit ∧
    op_table_dispatch_eval (tstack_add_op (init_op_table_data 100) 70 false 7 8) 65 =
      .undefinedBehavior ∧
    (tstack_push_op baseTable freshTStack (65 : Int) ⟨1, 1⟩).top_op = (65 : Int) :=
  ⟨(c10_add_op_gap_uninitialized_dispatch 100 70 false 7 8 (by decide)).1,
   ((c10_add_op_gap_uninitialized_dispatch 100 70 false 7 8 (by decide)).2 65
      (by decide) (by decide)).2.2.1,
   ((c10_add_op_gap_uninitialized_dispatch 100 70 false 7 8 (by decide)).2 65
      (by decide) (by decide)).2.2.2.2.2.1,
   ((c10_add_op_gap_uninitialized_dispatch 100 70 false 7 8 (by decide)).2 65
      (by decide) (by decide)).2.2.2.2.2.2 baseTable freshTStack ⟨1, 1⟩⟩

end TermStack2

namespace TermStack2

/-- The stack holding `[MK_BV_ROTATE_LEFT, bv64 v (m bits), rational k]`. -/
def rotLeftState (m v : Nat) (k : Int) : TStack :=
  tstack_push_int32
    (tstack_push_bv64
      (tstack_push_op baseTable freshTStack MK_BV_ROTATE_LEFT ⟨1, 1⟩) m v ⟨1, 2⟩)
    k ⟨1, 3⟩

/-- The stack holding `[MK_BV_ROTATE_RIGHT, bv64 v (m bits), rational k]`. -/
def rotRightState (m v : Nat) (k : Int) : TStack :=
  tstack_push_int32
    (tstack_push_bv64
      (tstack_push_op baseTable freshTStack MK_BV_ROTATE_RIGHT ⟨1, 1⟩) m v ⟨1, 2⟩)
    k ⟨1, 3⟩

/-- The state both rotations reach when the rotation is skipped: the
result cell is a logic buffer holding exactly the input's bits. -/
def rotIdentityResult (m v : Nat) : TStack :=
  { freshTStack with
    elems := [sentinelElem, ⟨.vbvlogic ⟨0, constBits m v⟩, ⟨1, 1⟩⟩]
    nextBufId := 1 }

theorem rotLeftState_eq (m v : Nat) (k : Int) :
    rotLeftState m v k =
      { freshTStack with
        elems := [sentinelElem, ⟨.vop MK_BV_ROTATE_LEFT 0 0, ⟨1, 1⟩⟩,
          ⟨.vbv64 m v, ⟨1, 2⟩⟩, ⟨.vrational (k : Rat), ⟨1, 3⟩⟩]
        frame := 1
        top_op := MK_BV_ROTATE_LEFT
        arenaDepth := 1 } := rfl

end TermStack2

namespace TermStack2

theorem rotRightState_eq (m v : Nat) (k : Int) :
    rotRightState m v k =
      { freshTStack with
        elems := [sentinelElem, ⟨.vop MK_BV_ROTATE_RIGHT 0 0, ⟨1, 1⟩⟩,
          ⟨.vbv64 m v, ⟨1, 2⟩⟩, ⟨.vrational (k : Rat), ⟨1, 3⟩⟩]
        frame := 1
        top_op := MK_BV_ROTATE_RIGHT
        arenaDepth := 1 } := rfl

end TermStack2

namespace TermStack2

theorem okBind {α β ε : Type} (a : α) (f : α → Except ε β) :
    (Except.ok a : Except ε α) >>= f = f a := rfl

theorem errBind {α β ε : Type} (e : ε) (f : α → Except ε β) :
    (Except.error e : Except ε α) >>= f = Except.error e := rfl

end TermStack2

namespace TermStack2

/-- C7: MK_BV_ROTATE_LEFT and MK_BV_ROTATE_RIGHT on an `m`-bit constant
with rotation count `k` first check `0 ≤ k ≤ m`, raising an error
(through the yices bridge) otherwise, with `k = m` permitted; and when
`k = m` the rotation is skipped, so the result cell holds exactly the
input's bits and denotes the input constant (rotation by the bitsize is
the identity). -/
theorem c7_rotate_bound_and_identity (m v : Nat) (k : Int)
    (hm64 : m ≤ 64) (hv : v < 2 ^ m)
    (hlo : -2147483648 ≤ k) (hhi : k ≤ 2147483647) :
    (¬ (0 ≤ k ∧ k ≤ (m : Int)) →
      tstack_eval baseTable (rotLeftState m v k) =
        .error ⟨.TSTACK_YICES_ERROR, ⟨1, 1⟩, MK_BV_ROTATE_LEFT, none⟩ ∧
      tstack_eval baseTable (rotRightState m v k) =
        .error ⟨.TSTACK_YICES_ERROR, ⟨1, 1⟩, MK_BV_ROTATE_RIGHT, none⟩) ∧
    (k = (m : Int) →
      tstack_eval baseTable (rotLeftState m v k) = .ok (rotIdentityResult m v) ∧
      tstack_eval baseTable (rotRightState m v k) = .ok (rotIdentityResult m v) ∧
      get_term (rotIdentityResult m v) (elemAt (rotIdentityResult m v) 1) =
        .ok (.bvconst64 m v)) := by
  have hgetInt : ∀ (s : TStack) (l : Loc),
      get_integer s ⟨.vrational (k : Rat), l⟩ = .ok k := by
    intro s l
    simp [get_integer, Rat.den_intCast, Rat.num_intCast, hlo, hhi]
  have hstepL : tstack_eval baseTable (rotLeftState m v k) =
      eval_mk_bv_rotate_left (rotLeftState m v k) 2 2 := rfl
  have hstepR : tstack_eval baseTable (rotRightState m v k) =
      eval_mk_bv_rotate_right (rotRightState m v k) 2 2 := rfl
  have h3L : elemAt (rotLeftState m v k) 3 = ⟨.vrational (k : Rat), ⟨1, 3⟩⟩ := rfl
  have h3R : elemAt (rotRightState m v k) 3 = ⟨.vrational (k : Rat), ⟨1, 3⟩⟩ := rfl
  have hbufL : tstack_get_bvlbuffer (rotLeftState m v k) =
      ({ rotLeftState m v k with bvl := some ⟨0, []⟩, nextBufId := 1 }, ⟨0, []⟩) := rfl
  have hbufR : tstack_get_bvlbuffer (rotRightState m v k) =
      ({ rotRightState m v k with bvl := some ⟨0, []⟩, nextBufId := 1 }, ⟨0, []⟩) := rfl
  have h2L : elemAt { rotLeftState m v k with bvl := some ⟨0, []⟩, nextBufId := 1 } 2 =
      ⟨.vbv64 m v, ⟨1, 2⟩⟩ := rfl
  have h2R : elemAt { rotRightState m v k with bvl := some ⟨0, []⟩, nextBufId := 1 } 2 =
      ⟨.vbv64 m v, ⟨1, 2⟩⟩ := rfl
  constructor
  · intro hbad
    have hshift : yices_check_bitshift ⟨0, constBits m v⟩ k = false := by
      simp only [yices_check_bitshift, constBits_length]
      simpa using hbad
    constructor
    · rw [hstepL]
      unfold eval_mk_bv_rotate_left
      rw [h3L, hgetInt]
      simp only [okBind, hbufL, h2L, bvl_set_elem, bvlSetConstant64, hshift,
        Bool.not_false, if_true]
      rfl
    · rw [hstepR]
      unfold eval_mk_bv_rotate_right
      rw [h3R, hgetInt]
      simp only [okBind, hbufR, h2R, bvl_set_elem, bvlSetConstant64, hshift,
        Bool.not_false, if_true]
      rfl
  · intro hk
    subst hk
    have hshift : yices_check_bitshift ⟨0, constBits m v⟩ (m : Int) = true := by
      simp [yices_check_bitshift, constBits_length]
    have hnotlt : ¬ ((m : Int) < (((constBits m v).length : Nat) : Int)) := by
      simp [constBits_length]
    refine ⟨?_, ?_, ?_⟩
    · rw [hstepL]
      unfold eval_mk_bv_rotate_left
      rw [h3L, hgetInt]
      simp only [okBind, hbufL, h2L, bvl_set_elem, bvlSetConstant64, hshift,
        Bool.not_true]
      rw [if_neg (by simp), if_neg hnotlt]
      rfl
    · rw [hstepR]
      unfold eval_mk_bv_rotate_right
      rw [h3R, hgetInt]
      simp only [okBind, hbufR, h2R, bvl_set_elem, bvlSetConstant64, hshift,
        Bool.not_true]
      rw [if_neg (by simp), if_neg hnotlt]
      rfl
    · have he : get_term (rotIdentityResult m v) (elemAt (rotIdentityResult m v) 1) =
          .ok (bvlogic_buffer_get_term ⟨0, constBits m v⟩) := rfl
      rw [he]
      simp only [bvlogic_buffer_get_term, bitsConstant_constBits, constBits_length,
        bitsValue_constBits, if_true]
      rw [if_pos hm64, Nat.mod_eq_of_lt hv]

end TermStack2

namespace TermStack2

/-- Witness for C7 at a concrete input: rotating a 4-bit constant by 4 is
the identity, rotating by 5 raises the bound error. -/
theorem c7_rotate_bound_and_identity_witness :
    tstack_eval baseTable (rotLeftState 4 10 4) = .ok (rotIdentityResult 4 10) ∧
    tstack_eval baseTable (rotLeftState 4 10 5) =
      .error ⟨.TSTACK_YICES_ERROR, ⟨1, 1⟩, MK_BV_ROTATE_LEFT, none⟩ :=
  ⟨((c7_rotate_bound_and_identity 4 10 4 (by decide) (by decide) (by decide)
        (by decide)).2 (by decide)).1,
   ((c7_rotate_bound_and_identity 4 10 5 (by decide) (by decide) (by decide)
        (by decide)).1 (by decide)).1⟩

end TermStack2

namespace TermStack2

theorem neg64_mod (m v : Nat) (hm : m ≤ 64) (hv : v < 2 ^ m) :
    norm64 ((2 ^ 64 - v % 2 ^ 64) % 2 ^ 64) m = (2 ^ m - v) % 2 ^ m := by
  show ((2 ^ 64 - v % 2 ^ 64) % 2 ^ 64) % 2 ^ m = (2 ^ m - v) % 2 ^ m
  have hvv : v % 2 ^ 64 = v :=
    Nat.mod_eq_of_lt (lt_of_lt_of_le hv (Nat.pow_le_pow_right (by norm_num) hm))
  rw [hvv]
  rcases Nat.eq_zero_or_pos v with h0 | hpos
  · subst h0; simp
  · have hA : 0 < 2 ^ m := by positivity
    have h64 : 0 < (2 : Nat) ^ 64 := by positivity
    have hlt : 2 ^ 64 - v < 2 ^ 64 := by omega
    rw [Nat.mod_eq_of_lt hlt]
    have hK : 1 ≤ 2 ^ (64 - m) := Nat.one_le_two_pow
    obtain ⟨K, hKeq⟩ : ∃ K, 2 ^ (64 - m) = K + 1 := ⟨2 ^ (64 - m) - 1, by omega⟩
    have hsplit : 2 ^ 64 = 2 ^ m * 2 ^ (64 - m) := by
      rw [← pow_add]; congr 1; omega
    have hsplit2 : 2 ^ 64 = K * 2 ^ m + 2 ^ m := by
      rw [hsplit, hKeq]; ring
    have h1 : 2 ^ 64 - v = (2 ^ m - v) + K * 2 ^ m := by
      have := Nat.le_of_lt hv
      omega
    rw [h1, Nat.add_mul_mod_self_right]

/-- The stack holding the frame `[MK_BV_NEG, bv64 v (m bits)]`. -/
def negState (m v : Nat) : TStack :=
  tstack_push_bv64 (tstack_push_op baseTable freshTStack MK_BV_NEG ⟨1, 1⟩) m v ⟨1, 2⟩

/-- The state after evaluating that frame: the raw 64-bit negation. -/
def negResult (m v : Nat) : TStack :=
  { freshTStack with
    elems := [sentinelElem, ⟨.vbv64 m ((2 ^ 64 - v % 2 ^ 64) % 2 ^ 64), ⟨1, 2⟩⟩] }

/-- C8 (amended): a BV64 cell created by `tstack_push_bv64` (hence by the
bvbin/bvhex/bv-const push paths, which establish the assert
`1 ≤ n ≤ 64 ∧ c = norm64 c n`) is normalized; but the result cell of
MK_BV_NEG on a small bit-vector constant stores the raw 64-bit
two's-complement negation `(2^64 - v) mod 2^64`, generally unnormalized.
The value is nonetheless correct modulo `2^bitsize`, and `get_term`
re-normalizes on conversion, producing the constant term
`(2^m - v) mod 2^m`. -/
theorem c8_bv64_normalization_amended (m v : Nat)
    (_hm1 : 1 ≤ m) (hm64 : m ≤ 64) (hv : v < 2 ^ m) :
    (∀ (s : TStack) (loc : Loc),
      (tstack_push_bv64 s m v loc).elems = s.elems ++ [⟨.vbv64 m v, loc⟩] ∧
      v = norm64 v m) ∧
    tstack_eval baseTable (negState m v) = .ok (negResult m v) ∧
    (elemAt (negResult m v) 1).val = .vbv64 m ((2 ^ 64 - v % 2 ^ 64) % 2 ^ 64) ∧
    norm64 ((2 ^ 64 - v % 2 ^ 64) % 2 ^ 64) m = (2 ^ m - v) % 2 ^ m ∧
    get_term (negResult m v) (elemAt (negResult m v) 1) =
      .ok (.bvconst64 m ((2 ^ m - v) % 2 ^ m)) := by
  refine ⟨?_, rfl, rfl, neg64_mod m v hm64 hv, ?_⟩
  · intro s loc
    exact ⟨rfl, (Nat.mod_eq_of_lt hv).symm⟩
  · have he : get_term (negResult m v) (elemAt (negResult m v) 1) =
        .ok (.bvconst64 m (norm64 ((2 ^ 64 - v % 2 ^ 64) % 2 ^ 64) m)) := rfl
    rw [he, neg64_mod m v hm64 hv]

/-- Witness for C8's amended statement at `m = 4`, `v = 1`. -/
theorem c8_bv64_normalization_amended_witness :
    tstack_eval baseTable (negState 4 1) = .ok (negResult 4 1) ∧
    norm64 ((2 ^ 64 - 1 % 2 ^ 64) % 2 ^ 64) 4 = (2 ^ 4 - 1) % 2 ^ 4 :=
  ⟨(c8_bv64_normalization_amended 4 1 (by decide) (by decide) (by decide)).2.1,
   (c8_bv64_normalization_amended 4 1 (by decide) (by decide) (by decide)).2.2.2.1⟩

end TermStack2

namespace TermStack2

/-- A one-argument frame `[op, bv64 v (m bits)]`. -/
def oneArgState (op : Int) (m v : Nat) : TStack :=
  tstack_push_bv64 (tstack_push_op baseTable freshTStack op ⟨1, 1⟩) m v ⟨1, 2⟩

/-- The state after a one-argument polynomial evaluation: one buffer
cell holding the constant `v`. -/
def oneArgBufResult (m v : Nat) : TStack :=
  { freshTStack with
    elems := [sentinelElem, ⟨.vbvarith64 ⟨0, m, v, []⟩, ⟨1, 1⟩⟩]
    nextBufId := 1 }

/-- The state after a one-argument bit-array evaluation: one logic-buffer
cell holding the bits of `v`. -/
def oneArgBitsResult (m v : Nat) : TStack :=
  { freshTStack with
    elems := [sentinelElem, ⟨.vbvlogic ⟨0, constBits m v⟩, ⟨1, 1⟩⟩]
    nextBufId := 1 }

theorem c9aux_add (m v : Nat) (hm64 : m ≤ 64) (hv : v < 2 ^ m) :
    tstack_eval baseTable (oneArgState MK_BV_ADD m v) = .ok (oneArgBufResult m v) := by
  have hstep : tstack_eval baseTable (oneArgState MK_BV_ADD m v) =
      eval_mk_bv_add (oneArgState MK_BV_ADD m v) 2 1 := rfl
  have hbs : elem_bitsize (oneArgState MK_BV_ADD m v)
      (elemAt (oneArgState MK_BV_ADD m v) 2) = .ok m := rfl
  have hbuf : tstack_get_bva64buffer (oneArgState MK_BV_ADD m v) m =
      ({ oneArgState MK_BV_ADD m v with bva64 := some ⟨0, m, 0, []⟩, nextBufId := 1 },
        ⟨0, m, 0, []⟩) := rfl
  have hadd : bva64_add_elem
      { oneArgState MK_BV_ADD m v with bva64 := some ⟨0, m, 0, []⟩, nextBufId := 1 }
      ⟨0, m, 0, []⟩
      (elemAt { oneArgState MK_BV_ADD m v with
        bva64 := some ⟨0, m, 0, []⟩, nextBufId := 1 } 2) =
      .ok ⟨0, m, (0 + v) % 2 ^ m, []⟩ := by
    have hE : elemAt { oneArgState MK_BV_ADD m v with
        bva64 := some ⟨0, m, 0, []⟩, nextBufId := 1 } 2 = ⟨.vbv64 m v, ⟨1, 2⟩⟩ := rfl
    rw [hE]
    simp [bva64_add_elem, bv64add_const]
  rw [hstep]
  unfold eval_mk_bv_add
  rw [hbs]
  simp only [okBind]
  rw [if_pos hm64]
  simp only [hbuf, show List.range 1 = [0] from rfl, List.foldlM, okBind, hadd]
  rw [Nat.zero_add, Nat.mod_eq_of_lt hv]
  rfl

end TermStack2

namespace TermStack2

theorem c9aux_mul (m v : Nat) (hm64 : m ≤ 64) (hv : v < 2 ^ m) :
    tstack_eval baseTable (oneArgState MK_BV_MUL m v) = .ok (oneArgBufResult m v) := by
  have hstep : tstack_eval baseTable (oneArgState MK_BV_MUL m v) =
      eval_mk_bv_mul (oneArgState MK_BV_MUL m v) 2 1 := rfl
  have hbs : elem_bitsize (oneArgState MK_BV_MUL m v)
      (elemAt (oneArgState MK_BV_MUL m v) 2) = .ok m := rfl
  have hbuf : tstack_get_bva64buffer (oneArgState MK_BV_MUL m v) m =
      ({ oneArgState MK_BV_MUL m v with bva64 := some ⟨0, m, 0, []⟩, nextBufId := 1 },
        ⟨0, m, 0, []⟩) := rfl
  have hadd : bva64_add_elem
      { oneArgState MK_BV_MUL m v with bva64 := some ⟨0, m, 0, []⟩, nextBufId := 1 }
      ⟨0, m, 0, []⟩
      (elemAt { oneArgState MK_BV_MUL m v with
        bva64 := some ⟨0, m, 0, []⟩, nextBufId := 1 } 2) =
      .ok ⟨0, m, (0 + v) % 2 ^ m, []⟩ := by
    have hE : elemAt { oneArgState MK_BV_MUL m v with
        bva64 := some ⟨0, m, 0, []⟩, nextBufId := 1 } 2 = ⟨.vbv64 m v, ⟨1, 2⟩⟩ := rfl
    rw [hE]
    simp [bva64_add_elem, bv64add_const]
  rw [hstep]
  unfold eval_mk_bv_mul
  rw [hbs]
  simp only [okBind]
  rw [if_pos hm64]
  simp only [hbuf, okBind, hadd, show List.range (1 - 1) = [] from rfl, List.foldlM]
  rw [Nat.zero_add, Nat.mod_eq_of_lt hv]
  rfl

theorem c9aux_and (m v : Nat) :
    tstack_eval baseTable (oneArgState MK_BV_AND m v) = .ok (oneArgBitsResult m v) := rfl

theorem c9aux_or (m v : Nat) :
    tstack_eval baseTable (oneArgState MK_BV_OR m v) = .ok (oneArgBitsResult m v) := rfl

theorem c9aux_xor (m v : Nat) :
    tstack_eval baseTable (oneArgState MK_BV_XOR m v) = .ok (oneArgBitsResult m v) := rfl

theorem c9aux_concat (m v : Nat) :
    tstack_eval baseTable (oneArgState MK_BV_CONCAT m v) = .ok (oneArgBitsResult m v) := by
  have h : tstack_eval baseTable (oneArgState MK_BV_CONCAT m v) =
      .ok { freshTStack with
        elems := [sentinelElem, ⟨.vbvlogic ⟨0, constBits m v ++ []⟩, ⟨1, 1⟩⟩]
        nextBufId := 1 } := rfl
  rw [h, List.append_nil]
  rfl

/-- The state after evaluating a one-argument NAND/NOR/XNOR frame: the
complemented bits. -/
def oneArgNotResult (m v : Nat) : TStack :=
  { freshTStack with
    elems := [sentinelElem, ⟨.vbvlogic ⟨0, (constBits m v).map bitNot⟩, ⟨1, 1⟩⟩]
    nextBufId := 1 }

theorem c9aux_nand (m v : Nat) :
    tstack_eval baseTable (oneArgState MK_BV_NAND m v) = .ok (oneArgNotResult m v) := rfl

theorem c9aux_nor (m v : Nat) :
    tstack_eval baseTable (oneArgState MK_BV_NOR m v) = .ok (oneArgNotResult m v) := rfl

theorem c9aux_xnor (m v : Nat) :
    tstack_eval baseTable (oneArgState MK_BV_XNOR m v) = .ok (oneArgNotResult m v) := rfl

theorem c9aux_nand_value (m v : Nat) (hm64 : m ≤ 64) (hv : v < 2 ^ m) :
    get_term (oneArgNotResult m v) (elemAt (oneArgNotResult m v) 1) =
      .ok (.bvconst64 m (2 ^ m - 1 - v)) := by
  have he : get_term (oneArgNotResult m v) (elemAt (oneArgNotResult m v) 1) =
      .ok (bvlogic_buffer_get_term ⟨0, (constBits m v).map bitNot⟩) := rfl
  rw [he]
  rw [show (⟨0, (constBits m v).map bitNot⟩ : BvLogicBuffer) =
    ⟨0, constBits m (2 ^ m - 1 - v % 2 ^ m)⟩ from by rw [constBits_map_bitNot]]
  simp only [bvlogic_buffer_get_term, bitsConstant_constBits, constBits_length,
    bitsValue_constBits, if_true]
  rw [if_pos hm64, Nat.mod_eq_of_lt hv,
    Nat.mod_eq_of_lt (by
      have h0 : (0 : Nat) < 2 ^ m := by positivity
      omega)]

/-- A one-argument frame `[op, term t]`. -/
def orOneState (op : Int) (t : YTerm) : TStack :=
  tstack_push_term (tstack_push_op baseTable freshTStack op ⟨1, 1⟩) t ⟨1, 2⟩

/-- The state after the singleton propositional evaluation: the argument
term itself. -/
def orOneResult (t : YTerm) : TStack :=
  { freshTStack with elems := [sentinelElem, ⟨.vterm t, ⟨1, 1⟩⟩] }

theorem c9aux_or_one (t : YTerm) :
    tstack_eval baseTable (orOneState MK_OR t) = .ok (orOneResult t) := rfl

theorem c9aux_and_one (t : YTerm) :
    tstack_eval baseTable (orOneState MK_AND t) = .ok (orOneResult t) := rfl

theorem c9aux_xor_one (t : YTerm) :
    tstack_eval baseTable (orOneState MK_XOR t) = .ok (orOneResult t) := rfl

end TermStack2

namespace TermStack2

/-- `m`-bit modular subtraction: `(x - y) mod 2^m` as computed by
`bvarith64_buffer_sub_const`. -/
def msub (m x y : Nat) : Nat := (x + (2 ^ m - y % 2 ^ m)) % 2 ^ m

/-- The stack holding the frame `[MK_BV_SUB, a, b, c]` (three `m`-bit
constants). -/
def subThreeState (m a b c : Nat) : TStack :=
  tstack_push_bv64
    (tstack_push_bv64
      (tstack_push_bv64
        (tstack_push_op baseTable freshTStack MK_BV_SUB ⟨1, 1⟩) m a ⟨1, 2⟩)
      m b ⟨1, 3⟩)
    m c ⟨1, 4⟩

/-- The state after evaluating that frame: the left fold `(a - b) - c`
in `m`-bit arithmetic. -/
def subThreeResult (m a b c : Nat) : TStack :=
  { freshTStack with
    elems := [sentinelElem,
      ⟨.vbvarith64 ⟨0, m, msub m (msub m a b) c, []⟩, ⟨1, 1⟩⟩]
    nextBufId := 1 }

theorem c9aux_sub_fold (m a b c : Nat) (hm64 : m ≤ 64) (ha : a < 2 ^ m) :
    tstack_eval baseTable (subThreeState m a b c) = .ok (subThreeResult m a b c) := by
  have hstep : tstack_eval baseTable (subThreeState m a b c) =
      eval_mk_bv_sub (subThreeState m a b c) 2 3 := rfl
  have hbs : elem_bitsize (subThreeState m a b c)
      (elemAt (subThreeState m a b c) 2) = .ok m := rfl
  have hbuf : tstack_get_bva64buffer (subThreeState m a b c) m =
      ({ subThreeState m a b c with bva64 := some ⟨0, m, 0, []⟩, nextBufId := 1 },
        ⟨0, m, 0, []⟩) := rfl
  have hadd : bva64_add_elem
      { subThreeState m a b c with bva64 := some ⟨0, m, 0, []⟩, nextBufId := 1 }
      ⟨0, m, 0, []⟩
      (elemAt { subThreeState m a b c with
        bva64 := some ⟨0, m, 0, []⟩, nextBufId := 1 } 2) =
      .ok ⟨0, m, (0 + a) % 2 ^ m, []⟩ := by
    have hE : elemAt { subThreeState m a b c with
        bva64 := some ⟨0, m, 0, []⟩, nextBufId := 1 } 2 = ⟨.vbv64 m a, ⟨1, 2⟩⟩ := rfl
    rw [hE]
    simp [bva64_add_elem, bv64add_const]
  have hsub1 : ∀ X : Nat, bva64_sub_elem
      { subThreeState m a b c with bva64 := some ⟨0, m, 0, []⟩, nextBufId := 1 }
      ⟨0, m, X, []⟩
      (elemAt { subThreeState m a b c with
        bva64 := some ⟨0, m, 0, []⟩, nextBufId := 1 } 3) =
      .ok ⟨0, m, msub m X b, []⟩ := by
    intro X
    have hE : elemAt { subThreeState m a b c with
        bva64 := some ⟨0, m, 0, []⟩, nextBufId := 1 } 3 = ⟨.vbv64 m b, ⟨1, 3⟩⟩ := rfl
    rw [hE]
    simp [bva64_sub_elem, bv64sub_const, msub]
  have hsub2 : ∀ X : Nat, bva64_sub_elem
      { subThreeState m a b c with bva64 := some ⟨0, m, 0, []⟩, nextBufId := 1 }
      ⟨0, m, X, []⟩
      (elemAt { subThreeState m a b c with
        bva64 := some ⟨0, m, 0, []⟩, nextBufId := 1 } 4) =
      .ok ⟨0, m, msub m X c, []⟩ := by
    intro X
    have hE : elemAt { subThreeState m a b c with
        bva64 := some ⟨0, m, 0, []⟩, nextBufId := 1 } 4 = ⟨.vbv64 m c, ⟨1, 4⟩⟩ := rfl
    rw [hE]
    simp [bva64_sub_elem, bv64sub_const, msub]
  rw [hstep]
  unfold eval_mk_bv_sub
  rw [hbs]
  simp only [okBind]
  rw [if_pos hm64]
  simp only [hbuf, okBind, hadd, show List.range (3 - 1) = [0, 1] from rfl,
    List.foldlM]
  rw [Nat.zero_add, Nat.mod_eq_of_lt ha]
  simp only [okBind, show (2 : Nat) + 1 + 0 = 3 from rfl,
    show (2 : Nat) + 1 + 1 = 4 from rfl, hsub1, hsub2]
  rfl

end TermStack2

namespace TermStack2

theorem msub_lt (m x y : Nat) : msub m x y < 2 ^ m :=
  Nat.mod_lt _ (by positivity)

theorem bufResult_get_term (m v : Nat) (hv : v < 2 ^ m) :
    get_term (oneArgBufResult m v) (elemAt (oneArgBufResult m v) 1) =
      .ok (.bvconst64 m v) := by
  have he : get_term (oneArgBufResult m v) (elemAt (oneArgBufResult m v) 1) =
      .ok (.bvconst64 m (v % 2 ^ m)) := rfl
  rw [he, Nat.mod_eq_of_lt hv]

theorem bitsResult_get_term (m v : Nat) (hm64 : m ≤ 64) (hv : v < 2 ^ m) :
    get_term (oneArgBitsResult m v) (elemAt (oneArgBitsResult m v) 1) =
      .ok (.bvconst64 m v) := by
  have he : get_term (oneArgBitsResult m v) (elemAt (oneArgBitsResult m v) 1) =
      .ok (bvlogic_buffer_get_term ⟨0, constBits m v⟩) := rfl
  rw [he]
  simp only [bvlogic_buffer_get_term, bitsConstant_constBits, constBits_length,
    bitsValue_constBits, if_true]
  rw [if_pos hm64, Nat.mod_eq_of_lt hv]

theorem subResult_get_term (m a b c : Nat) :
    get_term (subThreeResult m a b c) (elemAt (subThreeResult m a b c) 1) =
      .ok (.bvconst64 m (msub m (msub m a b) c)) := by
  have he : get_term (subThreeResult m a b c) (elemAt (subThreeResult m a b c) 1) =
      .ok (.bvconst64 m (msub m (msub m a b) c % 2 ^ m)) := rfl
  rw [he, Nat.mod_eq_of_lt (msub_lt m _ c)]

/-- C9 (amended): every associative operator (MK_OR, MK_AND, MK_XOR,
MK_BV_ADD, MK_BV_MUL, the bitwise connectives, MK_BV_CONCAT) accepts a
one-argument frame (check n ≥ 1), and for the plain ones the
one-argument frame evaluates to (a cell denoting) that argument; the
complemented connectives MK_BV_NAND / NOR / XNOR, however, evaluate a
single argument to its bitwise complement, not to the argument.
MK_BV_SUB is not associative, demands n ≥ 2 (raising
TSTACK_INVALID_FRAME on a one-argument frame), and computes the left
fold `(a - b) - c` in `m`-bit arithmetic. -/
theorem c9_associative_arity_amended :
    (base_assoc MK_OR = true ∧ base_assoc MK_AND = true ∧ base_assoc MK_XOR = true ∧
      base_assoc MK_BV_ADD = true ∧ base_assoc MK_BV_MUL = true ∧
      base_assoc MK_BV_AND = true ∧ base_assoc MK_BV_OR = true ∧
      base_assoc MK_BV_XOR = true ∧ base_assoc MK_BV_NAND = true ∧
      base_assoc MK_BV_NOR = true ∧ base_assoc MK_BV_XNOR = true ∧
      base_assoc MK_BV_CONCAT = true ∧ base_assoc MK_BV_SUB = false) ∧
    (∀ s f, s.top_op = MK_OR → check_mk_or s f 1 = .ok ()) ∧
    (∀ s f, s.top_op = MK_AND → check_mk_and s f 1 = .ok ()) ∧
    (∀ s f, s.top_op = MK_XOR → check_mk_xor s f 1 = .ok ()) ∧
    (∀ s f, s.top_op = MK_BV_ADD → check_mk_bv_add s f 1 = .ok ()) ∧
    (∀ s f, s.top_op = MK_BV_MUL → check_mk_bv_mul s f 1 = .ok ()) ∧
    (∀ s f, s.top_op = MK_BV_AND → check_mk_bv_and s f 1 = .ok ()) ∧
    (∀ s f, s.top_op = MK_BV_OR → check_mk_bv_or s f 1 = .ok ()) ∧
    (∀ s f, s.top_op = MK_BV_XOR → check_mk_bv_xor s f 1 = .ok ()) ∧
    (∀ s f, s.top_op = MK_BV_NAND → check_mk_bv_nand s f 1 = .ok ()) ∧
    (∀ s f, s.top_op = MK_BV_NOR → check_mk_bv_nor s f 1 = .ok ()) ∧
    (∀ s f, s.top_op = MK_BV_XNOR → check_mk_bv_xnor s f 1 = .ok ()) ∧
    (∀ s f, s.top_op = MK_BV_CONCAT → check_mk_bv_concat s f 1 = .ok ()) ∧
    (∀ s f, s.top_op = MK_BV_SUB →
      check_mk_bv_sub s f 1 =
        .error (raise_exception s (elemAt s s.frame) .TSTACK_INVALID_FRAME)) ∧
    (∀ s f (n : Nat), s.top_op = MK_BV_SUB → 2 ≤ n →
      check_mk_bv_sub s f n = .ok ()) ∧
    (∀ t : YTerm,
      tstack_eval baseTable (orOneState MK_OR t) = .ok (orOneResult t) ∧
      tstack_eval baseTable (orOneState MK_AND t) = .ok (orOneResult t) ∧
      tstack_eval baseTable (orOneState MK_XOR t) = .ok (orOneResult t)) ∧
    (∀ m v : Nat, m ≤ 64 → v < 2 ^ m →
      tstack_eval baseTable (oneArgState MK_BV_ADD m v) = .ok (oneArgBufResult m v) ∧
      tstack_eval baseTable (oneArgState MK_BV_MUL m v) = .ok (oneArgBufResult m v) ∧
      tstack_eval baseTable (oneArgState MK_BV_AND m v) = .ok (oneArgBitsResult m v) ∧
      tstack_eval baseTable (oneArgState MK_BV_OR m v) = .ok (oneArgBitsResult m v) ∧
      tstack_eval baseTable (oneArgState MK_BV_XOR m v) = .ok (oneArgBitsResult m v) ∧
      tstack_eval baseTable (oneArgState MK_BV_CONCAT m v) = .ok (oneArgBitsResult m v) ∧
      get_term (oneArgBufResult m v) (elemAt (oneArgBufResult m v) 1) =
        .ok (.bvconst64 m v) ∧
      get_term (oneArgBitsResult m v) (elemAt (oneArgBitsResult m v) 1) =
        .ok (.bvconst64 m v)) ∧
    (∀ m v : Nat, m ≤ 64 → v < 2 ^ m →
      tstack_eval baseTable (oneArgState MK_BV_NAND m v) = .ok (oneArgNotResult m v) ∧
      tstack_eval baseTable (oneArgState MK_BV_NOR m v) = .ok (oneArgNotResult m v) ∧
      tstack_eval baseTable (oneArgState MK_BV_XNOR m v) = .ok (oneArgNotResult m v) ∧
      get_term (oneArgNotResult m v) (elemAt (oneArgNotResult m v) 1) =
        .ok (.bvconst64 m (2 ^ m - 1 - v))) ∧
    (∀ m a b c : Nat, m ≤ 64 → a < 2 ^ m →
      tstack_eval baseTable (subThreeState m a b c) = .ok (subThreeResult m a b c) ∧
      get_term (subThreeResult m a b c) (elemAt (subThreeResult m a b c) 1) =
        .ok (.bvconst64 m (msub m (msub m a b) c))) := by
  refine ⟨by decide, ?_, ?_, ?_, ?_, ?_, ?_, ?_, ?_, ?_, ?_, ?_, ?_, ?_, ?_, ?_, ?_, ?_, ?_⟩
  · intro s f h; simp [check_mk_or, check_op, check_size, h, okBind]
  · intro s f h; simp [check_mk_and, check_op, check_size, h, okBind]
  · intro s f h; simp [check_mk_xor, check_op, check_size, h, okBind]
  · intro s f h; simp [check_mk_bv_add, check_op, check_size, h, okBind]
  · intro s f h; simp [check_mk_bv_mul, check_op, check_size, h, okBind]
  · intro s f h; simp [check_mk_bv_and, check_op, check_size, h, okBind]
  · intro s f h; simp [check_mk_bv_or, check_op, check_size, h, okBind]
  · intro s f h; simp [check_mk_bv_xor, check_op, check_size, h, okBind]
  · intro s f h; simp [check_mk_bv_nand, check_op, check_size, h, okBind]
  · intro s f h; simp [check_mk_bv_nor, check_op, check_size, h, okBind]
  · intro s f h; simp [check_mk_bv_xnor, check_op, check_size, h, okBind]
  · intro s f h; simp [check_mk_bv_concat, check_op, check_size, h, okBind]
  · intro s f h; simp [check_mk_bv_sub, check_op, check_size, h, okBind]
  · intro s f n h hn
    simp [check_mk_bv_sub, check_op, check_size, h, hn, okBind]
  · intro t
    exact ⟨c9aux_or_one t, c9aux_and_one t, c9aux_xor_one t⟩
  · intro m v hm64 hv
    exact ⟨c9aux_add m v hm64 hv, c9aux_mul m v hm64 hv, c9aux_and m v,
      c9aux_or m v, c9aux_xor m v,
      c9aux_concat m v, bufResult_get_term m v hv, bitsResult_get_term m v hm64 hv⟩
  · intro m v hm64 hv
    exact ⟨c9aux_nand m v, c9aux_nor m v, c9aux_xnor m v, c9aux_nand_value m v hm64 hv⟩
  · intro m a b c hm64 ha
    exact ⟨c9aux_sub_fold m a b c hm64 ha, subResult_get_term m a b c⟩

/-- Witness for C9's amended statement at concrete inputs. -/
theorem c9_associative_arity_amended_witness :
    tstack_eval baseTable (oneArgState MK_BV_ADD 4 10) = .ok (oneArgBufResult 4 10) ∧
    tstack_eval baseTable (subThreeState 4 9 3 1) = .ok (subThreeResult 4 9 3 1) ∧
    get_term (subThreeResult 4 9 3 1) (elemAt (subThreeResult 4 9 3 1) 1) =
      .ok (.bvconst64 4 5) ∧
    check_mk_bv_sub (subThreeState 4 9 3 1) 2 3 = .ok () :=
  ⟨(c9_associative_arity_amended.2.2.2.2.2.2.2.2.2.2.2.2.2.2.2.2.1 4 10
      (by decide) (by decide)).1,
   (c9_associative_arity_amended.2.2.2.2.2.2.2.2.2.2.2.2.2.2.2.2.2.2 4 9 3 1
      (by decide) (by decide)).1,
   by
    have h := (c9_associative_arity_amended.2.2.2.2.2.2.2.2.2.2.2.2.2.2.2.2.2.2 4 9 3 1
      (by decide) (by decide)).2
    rw [h]
    rfl,
   c9_associative_arity_amended.2.2.2.2.2.2.2.2.2.2.2.2.2.2.1 (subThreeState 4 9 3 1)
     2 3 rfl (by decide)⟩

end TermStack2

namespace TermStack2

/-- Iterate `tstack_push_op` with the same operator `k` times. -/
def pushOpIter (tbl : OpTable) (op : Int) (loc : Loc) : Nat → TStack → TStack
  | 0, s => s
  | k + 1, s => pushOpIter tbl op loc k (tstack_push_op tbl s op loc)

/-- Push a sequence of leaf cells (`tstack_push_cell` for each). -/
def pushCells (s : TStack) (args : List StackElem) : TStack :=
  args.foldl (fun s a => tstack_push_cell s a.val a.loc) s

/-- Call `tstack_eval` `k` times in sequence. -/
def evalIter (tbl : OpTable) : Nat → TStack → Except ErrInfo TStack
  | 0, s => .ok s
  | k + 1, s => tstack_eval tbl s >>= evalIter tbl k

theorem listSetSelf {α : Type} (L : List α) (i : Nat) (d : α) (h : i < L.length) :
    L.set i (L.getD i d) = L := by
  induction L generalizing i with
  | nil => simp at h
  | cons a as ih =>
    cases i with
    | zero => simp [List.getD]
    | succ n =>
      have hn : n < as.length := by simpa using h
      simp only [List.set, List.getD, List.get?_cons_succ]
      rw [show ((as.get? n).getD d) = as.getD n d from rfl, ih n hn]

theorem listGetDSet {α : Type} (L : List α) (i : Nat) (x d : α) (h : i < L.length) :
    (L.set i x).getD i d = x := by
  simp [List.getD, List.getElem?_set_self, h]

theorem elemAt_lt (s : TStack) (i : Nat) (oc : Int) (m p : Nat) (l : Loc)
    (h : elemAt s i = ⟨.vop oc m p, l⟩) : i < s.elems.length := by
  by_contra hn
  push_neg at hn
  rw [elemAt, List.getD_eq_default _ _ hn] at h
  simp [defaultElem] at h

theorem pushCells_eq (args : List StackElem) :
    ∀ s : TStack, pushCells s args = { s with elems := s.elems ++ args } := by
  induction args with
  | nil => intro s; simp [pushCells]
  | cons a as ih =>
    intro s
    show pushCells (tstack_push_cell s a.val a.loc) as = _
    rw [ih]
    simp [tstack_push_cell]

theorem push_op_bump (tbl : OpTable) (op : Int) (loc : Loc) (s : TStack)
    (oc : Int) (m p : Nat) (l : Loc)
    (hassoc : (tbl op).assoc = true) (htop : s.top_op = op)
    (helem : elemAt s s.frame = ⟨.vop oc m p, l⟩) :
    tstack_push_op tbl s op loc =
      { s with elems := s.elems.set s.frame ⟨.vop oc (m + 1) p, l⟩ } := by
  unfold tstack_push_op
  rw [if_pos ⟨hassoc, htop⟩]
  simp only [helem]

theorem tstack_eval_dec (tbl : OpTable) (s : TStack) (oc : Int) (m p : Nat) (l : Loc)
    (h : elemAt s s.frame = ⟨.vop oc (m + 1) p, l⟩) :
    tstack_eval tbl s = .ok { s with elems := s.elems.set s.frame ⟨.vop oc m p, l⟩ } := by
  unfold tstack_eval
  simp only [h]

theorem evalIter_dec (tbl : OpTable) :
    ∀ (j r : Nat) (s : TStack) (oc : Int) (mm pp : Nat) (ll : Loc),
    elemAt s s.frame = ⟨.vop oc (mm + j) pp, ll⟩ →
    evalIter tbl (j + r) s =
      evalIter tbl r { s with elems := s.elems.set s.frame ⟨.vop oc mm pp, ll⟩ } := by
  intro j
  induction j with
  | zero =>
    intro r s oc mm pp ll h
    have hi := elemAt_lt s s.frame oc (mm + 0) pp ll h
    have : s.elems.set s.frame ⟨.vop oc mm pp, ll⟩ = s.elems := by
      have := listSetSelf s.elems s.frame defaultElem hi
      rw [show s.elems.getD s.frame defaultElem = elemAt s s.frame from rfl, h] at this
      simpa using this
    rw [this, Nat.zero_add]
  | succ j ih =>
    intro r s oc mm pp ll h
    have hi := elemAt_lt s s.frame oc (mm + (j + 1)) pp ll h
    have hstep : tstack_eval tbl s =
        .ok { s with elems := s.elems.set s.frame ⟨.vop oc (mm + j) pp, ll⟩ } := by
      apply tstack_eval_dec
      exact h
    have hra : j + 1 + r = (j + r) + 1 := by omega
    rw [hra]
    show tstack_eval tbl s >>= evalIter tbl (j + r) = _
    rw [hstep, okBind]
    have helem2 : elemAt { s with elems := s.elems.set s.frame ⟨.vop oc (mm + j) pp, ll⟩ }
        s.frame = ⟨.vop oc (mm + j) pp, ll⟩ := by
      show (s.elems.set s.frame ⟨.vop oc (mm + j) pp, ll⟩).getD s.frame defaultElem = _
      exact listGetDSet _ _ _ _ hi
    have := ih r { s with elems := s.elems.set s.frame ⟨.vop oc (mm + j) pp, ll⟩ }
      oc mm pp ll helem2
    rw [this, List.set_set]

end TermStack2

namespace TermStack2

theorem push_op_new_facts (tbl : OpTable) (op : Int) (loc : Loc) (s : TStack)
    (h : ¬((tbl op).assoc = true ∧ s.top_op = op)) :
    (tstack_push_op tbl s op loc).top_op = op ∧
    (tstack_push_op tbl s op loc).frame = s.elems.length ∧
    (tstack_push_op tbl s op loc).elems = s.elems ++ [⟨.vop op 0 s.frame, loc⟩] := by
  unfold tstack_push_op
  rw [if_neg h]
  by_cases hb : op = BIND <;> simp [hb]

theorem pushOpIter_bump (tbl : OpTable) (op : Int) (loc : Loc) :
    ∀ (j : Nat) (s : TStack) (mm pp : Nat) (ll : Loc),
    (tbl op).assoc = true → s.top_op = op →
    elemAt s s.frame = ⟨.vop op mm pp, ll⟩ →
    pushOpIter tbl op loc j s =
      { s with elems := s.elems.set s.frame ⟨.vop op (mm + j) pp, ll⟩ } := by
  intro j
  induction j with
  | zero =>
    intro s mm pp ll ha ht he
    have hi := elemAt_lt s s.frame op mm pp ll he
    have hset : s.elems.set s.frame ⟨.vop op (mm + 0) pp, ll⟩ = s.elems := by
      have h2 := listSetSelf s.elems s.frame defaultElem hi
      rw [show s.elems.getD s.frame defaultElem = elemAt s s.frame from rfl, he] at h2
      exact h2
    rw [show pushOpIter tbl op loc 0 s = s from rfl, hset]
  | succ j ih =>
    intro s mm pp ll ha ht he
    have hi := elemAt_lt s s.frame op mm pp ll he
    have hbump := push_op_bump tbl op loc s op mm pp ll ha ht he
    show pushOpIter tbl op loc j (tstack_push_op tbl s op loc) = _
    rw [hbump]
    have he' : elemAt { s with elems := s.elems.set s.frame ⟨.vop op (mm + 1) pp, ll⟩ }
        ({ s with elems := s.elems.set s.frame ⟨.vop op (mm + 1) pp, ll⟩ } : TStack).frame =
        ⟨.vop op (mm + 1) pp, ll⟩ := by
      show (s.elems.set s.frame ⟨.vop op (mm + 1) pp, ll⟩).getD s.frame defaultElem = _
      exact listGetDSet _ _ _ _ hi
    rw [ih { s with elems := s.elems.set s.frame ⟨.vop op (mm + 1) pp, ll⟩ } (mm + 1) pp ll ha ht he']
    have harith : mm + 1 + j = mm + (j + 1) := by omega
    have hcoll : ({ s with elems := s.elems.set s.frame ⟨.vop op (mm + 1) pp, ll⟩ } : TStack).elems.set ({ s with elems := s.elems.set s.frame ⟨.vop op (mm + 1) pp, ll⟩ } : TStack).frame ⟨.vop op (mm + 1 + j) pp, ll⟩ = s.elems.set s.frame ⟨.vop op (mm + (j + 1)) pp, ll⟩ := by
      show (s.elems.set s.frame ⟨.vop op (mm + 1) pp, ll⟩).set s.frame ⟨.vop op (mm + 1 + j) pp, ll⟩ = _
      rw [List.set_set, harith]
    rw [hcoll]

theorem assocRunCore (tbl : OpTable) (op : Int) (loc : Loc) (args : List StackElem)
    (j r : Nat) (s1 : TStack) (mm pp : Nat) (ll : Loc)
    (ha : (tbl op).assoc = true) (ht : s1.top_op = op)
    (he : elemAt s1 s1.frame = ⟨.vop op mm pp, ll⟩) :
    evalIter tbl (j + r) (pushCells (pushOpIter tbl op loc j s1) args) =
      evalIter tbl r (pushCells s1 args) := by
  have hi := elemAt_lt s1 s1.frame op mm pp ll he
  rw [pushOpIter_bump tbl op loc j s1 mm pp ll ha ht he]
  rw [pushCells_eq args]
  have heA : elemAt
      { s1 with elems := (s1.elems.set s1.frame ⟨.vop op (mm + j) pp, ll⟩) ++ args }
      ({ s1 with elems := (s1.elems.set s1.frame ⟨.vop op (mm + j) pp, ll⟩) ++ args } :
        TStack).frame = ⟨.vop op (mm + j) pp, ll⟩ := by
    show ((s1.elems.set s1.frame ⟨.vop op (mm + j) pp, ll⟩) ++ args).getD s1.frame
        defaultElem = _
    rw [List.getD_append _ _ _ _ (by simpa using hi)]
    exact listGetDSet _ _ _ _ hi
  rw [evalIter_dec tbl j r _ op mm pp ll heA]
  have hE : ((s1.elems.set s1.frame ⟨.vop op (mm + j) pp, ll⟩) ++ args).set s1.frame
      ⟨.vop op mm pp, ll⟩ = s1.elems ++ args := by
    rw [List.set_append_left _ _ (by simpa using hi), List.set_set]
    have h2 := listSetSelf s1.elems s1.frame defaultElem hi
    rw [show s1.elems.getD s1.frame defaultElem = elemAt s1 s1.frame from rfl, he] at h2
    rw [h2]
  show evalIter tbl r { s1 with elems := ((s1.elems.set s1.frame ⟨.vop op (mm + j) pp, ll⟩) ++ args).set s1.frame ⟨.vop op mm pp, ll⟩ } = _
  rw [hE, pushCells_eq args]

end TermStack2

namespace TermStack2

/-- C3: for an associative opcode `op`, (a) a re-push of `op` on a frame whose
current opcode is `op` only increments the frame's multiplicity counter —
it rewrites the existing OP cell in place, pushes no new cell (the element
count is unchanged) and opens no new arena scope — and (b) pushing `op`
`k ≥ 1` times, then the arguments, then calling `tstack_eval` once per push
(each call with multiplicity > 0 merely decrements the counter) reaches
exactly the same result as the single flat frame: one push of `op`, the same
arguments, one evaluation. -/
theorem c3_assoc_fold_equiv (tbl : OpTable) (op : Int) (loc : Loc) (s0 : TStack)
    (args : List StackElem) (k : Nat) (m0 p0 : Nat) (l0 : Loc)
    (hassoc : (tbl op).assoc = true)
    (hwf : elemAt s0 s0.frame = ⟨.vop s0.top_op m0 p0, l0⟩)
    (hk : 1 ≤ k) :
    (s0.top_op = op →
      tstack_push_op tbl s0 op loc =
        { s0 with elems := s0.elems.set s0.frame ⟨.vop s0.top_op (m0 + 1) p0, l0⟩ } ∧
      (tstack_push_op tbl s0 op loc).elems.length = s0.elems.length ∧
      (tstack_push_op tbl s0 op loc).arenaDepth = s0.arenaDepth) ∧
    evalIter tbl k (pushCells (pushOpIter tbl op loc k s0) args) =
      evalIter tbl 1 (pushCells (pushOpIter tbl op loc 1 s0) args) := by
  constructor
  · intro htop
    have hbump := push_op_bump tbl op loc s0 s0.top_op m0 p0 l0 hassoc htop hwf
    refine ⟨hbump, ?_, ?_⟩
    · rw [hbump]
      simp [List.length_set]
    · rw [hbump]
  · obtain ⟨j, rfl⟩ : ∃ j, k = j + 1 := ⟨k - 1, by omega⟩
    have hstep : pushOpIter tbl op loc (j + 1) s0 =
        pushOpIter tbl op loc j (tstack_push_op tbl s0 op loc) := rfl
    have hone : pushOpIter tbl op loc 1 s0 = tstack_push_op tbl s0 op loc := rfl
    rw [hstep, hone]
    by_cases htop : s0.top_op = op
    · have hbump := push_op_bump tbl op loc s0 s0.top_op m0 p0 l0 hassoc htop hwf
      rw [hbump]
      have hi := elemAt_lt s0 s0.frame s0.top_op m0 p0 l0 hwf
      have he' : elemAt { s0 with elems := s0.elems.set s0.frame ⟨.vop s0.top_op (m0 + 1) p0, l0⟩ } ({ s0 with elems := s0.elems.set s0.frame ⟨.vop s0.top_op (m0 + 1) p0, l0⟩ } : TStack).frame = ⟨.vop op (m0 + 1) p0, l0⟩ := by
        show (s0.elems.set s0.frame ⟨.vop s0.top_op (m0 + 1) p0, l0⟩).getD s0.frame defaultElem = _
        rw [htop]
        exact listGetDSet _ _ _ _ hi
      exact assocRunCore tbl op loc args j 1 _ (m0 + 1) p0 l0 hassoc htop he'
    · have hcond : ¬((tbl op).assoc = true ∧ s0.top_op = op) := fun hc => htop hc.2
      obtain ⟨ht1, hf1, he1⟩ := push_op_new_facts tbl op loc s0 hcond
      have he' : elemAt (tstack_push_op tbl s0 op loc) (tstack_push_op tbl s0 op loc).frame = ⟨.vop op 0 s0.frame, loc⟩ := by
        show (tstack_push_op tbl s0 op loc).elems.getD (tstack_push_op tbl s0 op loc).frame defaultElem = _
        rw [he1, hf1, List.getD_append_right _ _ _ _ (Nat.le_refl _)]
        simp
      exact assocRunCore tbl op loc args j 1 _ 0 s0.frame loc hassoc ht1 he'

/-- Concrete instance of `c3_assoc_fold_equiv`: `MK_BV_AND` is associative in
the base table, the fresh stack's sentinel frame is well-formed, and pushing
`MK_BV_AND` twice, two bit-vector arguments, and evaluating twice agrees with
the single flat frame. -/
theorem c3_assoc_fold_equiv_witness :
    (baseTable MK_BV_AND).assoc = true ∧
    elemAt freshTStack freshTStack.frame = ⟨.vop freshTStack.top_op 0 0, ⟨0, 0⟩⟩ ∧
    1 ≤ 2 ∧
    evalIter baseTable 2 (pushCells (pushOpIter baseTable MK_BV_AND ⟨1, 1⟩ 2 freshTStack) [⟨.vbv64 4 5, ⟨1, 2⟩⟩, ⟨.vbv64 4 12, ⟨1, 3⟩⟩]) =
      evalIter baseTable 1 (pushCells (pushOpIter baseTable MK_BV_AND ⟨1, 1⟩ 1 freshTStack) [⟨.vbv64 4 5, ⟨1, 2⟩⟩, ⟨.vbv64 4 12, ⟨1, 3⟩⟩]) :=
  ⟨rfl, rfl, by decide,
    (c3_assoc_fold_equiv baseTable MK_BV_AND ⟨1, 1⟩ freshTStack
      [⟨.vbv64 4 5, ⟨1, 2⟩⟩, ⟨.vbv64 4 12, ⟨1, 3⟩⟩] 2 0 0 ⟨0, 0⟩ rfl rfl (by decide)).2⟩

end TermStack2

namespace TermStack2

/-- The stack after `[LET [BIND name t] ...`: push LET, push BIND, push the
bound symbol, push the bound term (C5 scenario, before evaluating BIND). -/
def c5S4 (name : String) (t : YTerm) : TStack :=
  tstack_push_term
    (tstack_push_symbol
      (tstack_push_op baseTable
        (tstack_push_op baseTable freshTStack LET ⟨1, 1⟩) BIND ⟨1, 2⟩)
      name ⟨1, 3⟩)
    t ⟨1, 4⟩

/-- The state `eval_bind` produces on `c5S4`: the name registered in the
external registry and a `TAG_BINDING` cell left on top of the LET frame. -/
def c5S5 (name : String) (t : YTerm) : TStack :=
  set_binding_result (tstack_pop_frame (yices_set_term_name (c5S4 name t) t name)) t name

/-- The state `eval_let` produces after the LET body (the term `t`) is
pushed on `c5S5`: the body replaces the LET frame and the binding cell is
freed, removing the name registration. -/
def c5S7 (name : String) (t : YTerm) : TStack :=
  copy_result_and_pop_frame (tstack_push_cell (c5S5 name t) (.vterm t) ⟨1, 5⟩) 3

end TermStack2

namespace TermStack2

/-- C5: binding scoping through BIND and LET.  Evaluating BIND registers the
name in the external name-to-term registry and leaves a `TAG_BINDING` cell
(`eval_bind`); while that cell is live (inside the LET body) the name
resolves to the bound term, so `tstack_push_term_by_name` pushes `t`.
Evaluating the LET frees the binding cell (`copy_result_and_pop_frame` →
`tstack_free_val`), which removes exactly that registry entry: afterwards no
binding cell remains, the name no longer resolves, and
`tstack_push_term_by_name` fails with `TSTACK_UNDEF_TERM`. -/
theorem c5_bind_let_scoping (name : String) (t : YTerm) :
    tstack_eval baseTable (c5S4 name t) = .ok (c5S5 name t) ∧
    yices_get_term_by_name (c5S5 name t) name = some t ∧
    (elemAt (c5S5 name t) ((c5S5 name t).elems.length - 1)).val = .vbinding t name ∧
    tstack_push_term_by_name (c5S5 name t) name ⟨1, 5⟩ =
      .ok (tstack_push_cell (c5S5 name t) (.vterm t) ⟨1, 5⟩) ∧
    tstack_eval baseTable (tstack_push_cell (c5S5 name t) (.vterm t) ⟨1, 5⟩) =
      .ok (c5S7 name t) ∧
    yices_get_term_by_name (c5S7 name t) name = none ∧
    (∀ e ∈ (c5S7 name t).elems, ∀ u sym, e.val ≠ .vbinding u sym) ∧
    (∀ loc, tstack_push_term_by_name (c5S7 name t) name loc =
      .error (push_exception loc name .TSTACK_UNDEF_TERM)) := by
  have hlook5 : yices_get_term_by_name (c5S5 name t) name = some t := by
    have hnames : (c5S5 name t).names = [(name, t)] := rfl
    rw [yices_get_term_by_name, hnames]
    simp [List.find?]
  have hnames7 : (c5S7 name t).names = removeFirst name [(name, t)] := rfl
  have hlook7 : yices_get_term_by_name (c5S7 name t) name = none := by
    rw [yices_get_term_by_name, hnames7]
    simp [removeFirst, List.find?]
  refine ⟨rfl, hlook5, rfl, ?_, rfl, hlook7, ?_, ?_⟩
  · rw [tstack_push_term_by_name, hlook5]
  · intro e he u sym
    have helems : (c5S7 name t).elems = [sentinelElem, ⟨.vterm t, ⟨1, 5⟩⟩] := rfl
    rw [helems] at he
    simp only [List.mem_cons, List.not_mem_nil, or_false] at he
    rcases he with rfl | rfl <;> simp [sentinelElem]
  · intro loc
    rw [tstack_push_term_by_name, hlook7]

/-- Concrete instance of `c5_bind_let_scoping` at name `"x"`, term `true`:
the name resolves inside the LET body and no longer resolves after the LET
is evaluated. -/
theorem c5_bind_let_scoping_witness :
    yices_get_term_by_name (c5S5 "x" .trueTm) "x" = some .trueTm ∧
    yices_get_term_by_name (c5S7 "x" .trueTm) "x" = none :=
  ⟨(c5_bind_let_scoping "x" .trueTm).2.1,
    (c5_bind_let_scoping "x" .trueTm).2.2.2.2.2.1⟩

end TermStack2

namespace TermStack2

/-- The ids of the accumulator buffers owned by a stack element (empty for
non-buffer tags). -/
def bufIdsOf (e : StackElem) : List Nat :=
  match e.val with
  | .vbvarith64 b => [b.id]
  | .vbvarith b => [b.id]
  | .vbvlogic b => [b.id]
  | _ => []

/-- The ids of the buffers currently cached in the three pool slots. -/
def slotIds (s : TStack) : List Nat :=
  (s.bva64.map (·.id)).toList ++ (s.bva.map (·.id)).toList ++ (s.bvl.map (·.id)).toList

/-- A buffer id is disposed of: either freed, or returned to a pool slot. -/
def disposedIn (s : TStack) (id : Nat) : Prop :=
  id ∈ s.freedBufs ∨ (∃ b, s.bva64 = some b ∧ b.id = id) ∨
    (∃ b, s.bva = some b ∧ b.id = id) ∨ (∃ b, s.bvl = some b ∧ b.id = id)

theorem free_val_persists (s : TStack) (e : StackElem) (id : Nat)
    (h : disposedIn s id) : disposedIn (tstack_free_val s e) id := by
  rcases e with ⟨v, l⟩
  cases v <;> try exact h
  case vbvarith64 b =>
    show disposedIn (recycle_bva64buffer s b) id
    unfold recycle_bva64buffer
    rcases hs : s.bva64 with _ | b0
    · rcases h with h1 | ⟨b2, hb2, _⟩ | h3 | h4
      · exact Or.inl h1
      · rw [hs] at hb2; cases hb2
      · exact Or.inr (Or.inr (Or.inl h3))
      · exact Or.inr (Or.inr (Or.inr h4))
    · show disposedIn (if b0.id ≠ b.id then { s with bva64 := some b0, freedBufs := b.id :: s.freedBufs } else s) id
      by_cases hne : b0.id ≠ b.id
      · rw [if_pos hne]
        rcases h with h1 | ⟨bb, hbb, hbid⟩ | h3 | h4
        · exact Or.inl (List.mem_cons_of_mem _ h1)
        · rw [hs] at hbb
          injection hbb with hbb'
          subst hbb'
          exact Or.inr (Or.inl ⟨b0, rfl, hbid⟩)
        · exact Or.inr (Or.inr (Or.inl h3))
        · exact Or.inr (Or.inr (Or.inr h4))
      · rw [if_neg hne]
        exact h
  case vbvarith b =>
    show disposedIn (recycle_bvabuffer s b) id
    unfold recycle_bvabuffer
    rcases hs : s.bva with _ | b0
    · rcases h with h1 | h2 | ⟨b2, hb2, _⟩ | h4
      · exact Or.inl h1
      · exact Or.inr (Or.inl h2)
      · rw [hs] at hb2; cases hb2
      · exact Or.inr (Or.inr (Or.inr h4))
    · show disposedIn (if b0.id ≠ b.id then { s with bva := some b0, freedBufs := b.id :: s.freedBufs } else s) id
      by_cases hne : b0.id ≠ b.id
      · rw [if_pos hne]
        rcases h with h1 | h2 | ⟨bb, hbb, hbid⟩ | h4
        · exact Or.inl (List.mem_cons_of_mem _ h1)
        · exact Or.inr (Or.inl h2)
        · rw [hs] at hbb
          injection hbb with hbb'
          subst hbb'
          exact Or.inr (Or.inr (Or.inl ⟨b0, rfl, hbid⟩))
        · exact Or.inr (Or.inr (Or.inr h4))
      · rw [if_neg hne]
        exact h
  case vbvlogic b =>
    show disposedIn (recycle_bvlbuffer s b) id
    unfold recycle_bvlbuffer
    rcases hs : s.bvl with _ | b0
    · rcases h with h1 | h2 | h3 | ⟨b2, hb2, _⟩
      · exact Or.inl h1
      · exact Or.inr (Or.inl h2)
      · exact Or.inr (Or.inr (Or.inl h3))
      · rw [hs] at hb2; cases hb2
    · show disposedIn (if b0.id ≠ b.id then { s with bvl := some b0, freedBufs := b.id :: s.freedBufs } else s) id
      by_cases hne : b0.id ≠ b.id
      · rw [if_pos hne]
        rcases h with h1 | h2 | h3 | ⟨bb, hbb, hbid⟩
        · exact Or.inl (List.mem_cons_of_mem _ h1)
        · exact Or.inr (Or.inl h2)
        · exact Or.inr (Or.inr (Or.inl h3))
        · rw [hs] at hbb
          injection hbb with hbb'
          subst hbb'
          exact Or.inr (Or.inr (Or.inr ⟨b0, rfl, hbid⟩))
      · rw [if_neg hne]
        exact h

theorem free_val_disposes (s : TStack) (e : StackElem) (id : Nat)
    (hid : id ∈ bufIdsOf e) : disposedIn (tstack_free_val s e) id := by
  rcases e with ⟨v, l⟩
  cases v <;> simp [bufIdsOf] at hid
  case vbvarith64 b =>
    subst hid
    show disposedIn (recycle_bva64buffer s b) b.id
    unfold recycle_bva64buffer
    rcases hs : s.bva64 with _ | b0
    · exact Or.inr (Or.inl ⟨{ b with bitsize := 32, cst := 0, journal := [] }, rfl, rfl⟩)
    · show disposedIn (if b0.id ≠ b.id then { s with bva64 := some b0, freedBufs := b.id :: s.freedBufs } else s) b.id
      by_cases hne : b0.id ≠ b.id
      · rw [if_pos hne]
        exact Or.inl (List.mem_cons_self _ _)
      · rw [if_neg hne]
        push_neg at hne
        exact Or.inr (Or.inl ⟨b0, hs, hne⟩)
  case vbvarith b =>
    subst hid
    show disposedIn (recycle_bvabuffer s b) b.id
    unfold recycle_bvabuffer
    rcases hs : s.bva with _ | b0
    · exact Or.inr (Or.inr (Or.inl ⟨{ b with bitsize := 100, cst := 0, journal := [] }, rfl, rfl⟩))
    · show disposedIn (if b0.id ≠ b.id then { s with bva := some b0, freedBufs := b.id :: s.freedBufs } else s) b.id
      by_cases hne : b0.id ≠ b.id
      · rw [if_pos hne]
        exact Or.inl (List.mem_cons_self _ _)
      · rw [if_neg hne]
        push_neg at hne
        exact Or.inr (Or.inr (Or.inl ⟨b0, hs, hne⟩))
  case vbvlogic b =>
    subst hid
    show disposedIn (recycle_bvlbuffer s b) b.id
    unfold recycle_bvlbuffer
    rcases hs : s.bvl with _ | b0
    · exact Or.inr (Or.inr (Or.inr ⟨{ b with bits := [] }, rfl, rfl⟩))
    · show disposedIn (if b0.id ≠ b.id then { s with bvl := some b0, freedBufs := b.id :: s.freedBufs } else s) b.id
      by_cases hne : b0.id ≠ b.id
      · rw [if_pos hne]
        exact Or.inl (List.mem_cons_self _ _)
      · rw [if_neg hne]
        push_neg at hne
        exact Or.inr (Or.inr (Or.inr ⟨b0, hs, hne⟩))

theorem freeElems_persists (L : List StackElem) :
    ∀ (s : TStack) (id : Nat), disposedIn s id → disposedIn (freeElems s L) id := by
  induction L with
  | nil => intro s id h; exact h
  | cons e L ih =>
    intro s id h
    exact ih (tstack_free_val s e) id (free_val_persists s e id h)

theorem freeElems_disposes (L : List StackElem) :
    ∀ (s : TStack) (e : StackElem), e ∈ L → ∀ id ∈ bufIdsOf e,
    disposedIn (freeElems s L) id := by
  induction L with
  | nil => intro s e he; cases he
  | cons a L ih =>
    intro s e he id hid
    rcases List.mem_cons.mp he with rfl | he'
    · exact freeElems_persists L (tstack_free_val s e) id (free_val_disposes s e id hid)
    · exact ih (tstack_free_val s a) e he' id hid

end TermStack2

namespace TermStack2

/-- C4: `tstack_reset` restores a freshly-constructed stack state.  After a
reset of any stack (in particular one left by a raised error): the current
frame is the sentinel at index 0 with opcode `NO_OP`, the arena is fully
popped, `top = 1` (only the sentinel element remains — exactly the fresh
stack's array when the sentinel is intact), the fresh-variable counter is 0
and the error context is cleared; and every accumulator buffer owned by any
stack cell has been disposed of on the top-down walk: it is either freed or
recycled back into its pool slot. -/
theorem c4_reset_restores (s : TStack) :
    (tstack_reset s).frame = 0 ∧
    (tstack_reset s).top_op = NO_OP ∧
    (tstack_reset s).arenaDepth = 0 ∧
    (tstack_reset s).tvar_id = 0 ∧
    (tstack_reset s).errorOp = NO_OP ∧
    (tstack_reset s).errorLoc = ⟨0, 0⟩ ∧
    (tstack_reset s).errorString = none ∧
    (tstack_reset s).elems = s.elems.take 1 ∧
    (s.elems.take 1 = freshTStack.elems → (tstack_reset s).elems = freshTStack.elems) ∧
    (∀ e ∈ s.elems, ∀ id ∈ bufIdsOf e, disposedIn (tstack_reset s) id) := by
  refine ⟨rfl, rfl, rfl, rfl, rfl, rfl, rfl, rfl, ?_, ?_⟩
  · intro h
    show s.elems.take 1 = freshTStack.elems
    exact h
  · intro e he id hid
    show disposedIn (freeElems s s.elems.reverse) id
    exact freeElems_disposes s.elems.reverse s e (List.mem_reverse.mpr he) id hid

/-- Concrete instance of `c4_reset_restores`: a stack holding a small
bit-vector accumulator cell resets to the fresh element array, and the
buffer (id 7) is disposed of — here recycled into the empty pool slot. -/
theorem c4_reset_restores_witness :
    (tstack_reset { freshTStack with
        elems := [sentinelElem, ⟨.vbvarith64 ⟨7, 32, 0, []⟩, ⟨1, 1⟩⟩] }).elems =
      freshTStack.elems ∧
    disposedIn (tstack_reset { freshTStack with
        elems := [sentinelElem, ⟨.vbvarith64 ⟨7, 32, 0, []⟩, ⟨1, 1⟩⟩] }) 7 :=
  ⟨(c4_reset_restores { freshTStack with
        elems := [sentinelElem, ⟨.vbvarith64 ⟨7, 32, 0, []⟩, ⟨1, 1⟩⟩] }).2.2.2.2.2.2.2.2.1 rfl,
    (c4_reset_restores { freshTStack with
        elems := [sentinelElem, ⟨.vbvarith64 ⟨7, 32, 0, []⟩, ⟨1, 1⟩⟩] }).2.2.2.2.2.2.2.2.2
      ⟨.vbvarith64 ⟨7, 32, 0, []⟩, ⟨1, 1⟩⟩
      (List.mem_cons_of_mem _ (List.mem_cons_self _ _))
      7 (List.mem_singleton.mpr rfl)⟩

end TermStack2

namespace TermStack2

/-- C6 (amended): the buffer-pool discipline the code actually maintains.
Several buffer-tagged cells of one kind can be live simultaneously (see the
two-sibling-frames counterexample), but pool slot and cells never alias:
for each kind, storing a buffer into a result cell sets the pool slot to
NULL in the same step, and deleting (recycling) a buffer-tagged cell either
returns its buffer to the empty pool slot (re-prepared, same identity),
frees it when the slot holds a different buffer (slot untouched), or does
nothing when the slot already holds that very buffer — never leaving the
same buffer both in the pool and in a live cell. -/
theorem c6_buffer_pool_discipline_amended (s : TStack) (b64 : BvArith64Buffer)
    (bw : BvArithBuffer) (bl : BvLogicBuffer) :
    (set_bvarith64_result s b64).bva64 = none ∧
    (set_bvarith_result s bw).bva = none ∧
    (set_bvlogic_result s bl).bvl = none ∧
    (s.bva64 = none →
      (recycle_bva64buffer s b64).bva64 =
        some { b64 with bitsize := 32, cst := 0, journal := [] } ∧
      (recycle_bva64buffer s b64).freedBufs = s.freedBufs) ∧
    (∀ b0, s.bva64 = some b0 → b0.id ≠ b64.id →
      (recycle_bva64buffer s b64).bva64 = some b0 ∧
      (recycle_bva64buffer s b64).freedBufs = b64.id :: s.freedBufs) ∧
    (∀ b0, s.bva64 = some b0 → b0.id = b64.id → recycle_bva64buffer s b64 = s) ∧
    (s.bva = none →
      (recycle_bvabuffer s bw).bva =
        some { bw with bitsize := 100, cst := 0, journal := [] } ∧
      (recycle_bvabuffer s bw).freedBufs = s.freedBufs) ∧
    (∀ b0, s.bva = some b0 → b0.id ≠ bw.id →
      (recycle_bvabuffer s bw).bva = some b0 ∧
      (recycle_bvabuffer s bw).freedBufs = bw.id :: s.freedBufs) ∧
    (∀ b0, s.bva = some b0 → b0.id = bw.id → recycle_bvabuffer s bw = s) ∧
    (s.bvl = none →
      (recycle_bvlbuffer s bl).bvl = some { bl with bits := [] } ∧
      (recycle_bvlbuffer s bl).freedBufs = s.freedBufs) ∧
    (∀ b0, s.bvl = some b0 → b0.id ≠ bl.id →
      (recycle_bvlbuffer s bl).bvl = some b0 ∧
      (recycle_bvlbuffer s bl).freedBufs = bl.id :: s.freedBufs) ∧
    (∀ b0, s.bvl = some b0 → b0.id = bl.id → recycle_bvlbuffer s bl = s) := by
  refine ⟨rfl, rfl, rfl, ?_, ?_, ?_, ?_, ?_, ?_, ?_, ?_, ?_⟩
  · intro h
    simp [recycle_bva64buffer, h]
  · intro b0 h hne
    simp [recycle_bva64buffer, h, hne]
  · intro b0 h heq
    simp [recycle_bva64buffer, h, heq]
  · intro h
    simp [recycle_bvabuffer, h]
  · intro b0 h hne
    simp [recycle_bvabuffer, h, hne]
  · intro b0 h heq
    simp [recycle_bvabuffer, h, heq]
  · intro h
    simp [recycle_bvlbuffer, h]
  · intro b0 h hne
    simp [recycle_bvlbuffer, h, hne]
  · intro b0 h heq
    simp [recycle_bvlbuffer, h, heq]

/-- Concrete instance of `c6_buffer_pool_discipline_amended`: recycling
buffer 5 into the fresh (empty) pool stores it back re-prepared; recycling
it while the slot holds buffer 1 frees it instead. -/
theorem c6_buffer_pool_discipline_amended_witness :
    (recycle_bva64buffer freshTStack ⟨5, 8, 3, []⟩).bva64 = some ⟨5, 32, 0, []⟩ ∧
    (recycle_bva64buffer { freshTStack with bva64 := some ⟨1, 32, 0, []⟩ }
      ⟨5, 8, 3, []⟩).freedBufs = [5] :=
  ⟨((c6_buffer_pool_discipline_amended freshTStack ⟨5, 8, 3, []⟩ ⟨0, 100, 0, []⟩
      ⟨0, []⟩).2.2.2.1 rfl).1,
    ((c6_buffer_pool_discipline_amended { freshTStack with bva64 := some ⟨1, 32, 0, []⟩ }
      ⟨5, 8, 3, []⟩ ⟨0, 100, 0, []⟩ ⟨0, []⟩).2.2.2.2.1 ⟨1, 32, 0, []⟩ rfl
      (by decide)).2⟩

end TermStack2
